import Mathlib

/-
Verification development for the Dashboard-BI sales pipeline
(nucleo/: normalizacion, validacion, etl, filtros, pronostico, insights).

The Python code works over pandas DataFrames.  We embed a DataFrame as a
rectangular table of dynamically typed cells: a cell is a string, a
(rational) number, a null (modelling NaN/NaT), or a date (modelled as the
civil day number, the shallow embedding of pandas Timestamp at day
granularity, which is the granularity the program uses).  Python floats
are modelled as rationals.

Fallible Python operations (KeyError on a missing column, TypeError on an
unsupported elementwise comparison) are modelled with Except PyError.
-/

/-- A dynamically typed DataFrame cell: string, number (Python float
modelled as a rational), null (NaN/NaT/None), or a date (pandas Timestamp
at day granularity, as a civil day number). -/
inductive Cell where
  | str (s : String)
  | num (q : Rat)
  | null
  | date (d : Int)
deriving DecidableEq, Repr

/-- A Python exception surfaced by a pandas operation. -/
inductive PyError where
  | keyError (clave : String)
  | typeError (mensaje : String)
deriving DecidableEq, Repr

/-- A pandas DataFrame: an ordered list of column names and a list of rows,
each row a list of cells aligned positionally with the column names. -/
structure Table where
  cols : List String
  rows : List (List Cell)
deriving DecidableEq, Repr

/-- A table is well formed when it is rectangular (every row has exactly one
cell per column) and its column names are distinct, as is the case for any
DataFrame produced by pandas read_csv (which deduplicates column names). -/
def Table.WF (t : Table) : Prop :=
  (∀ r ∈ t.rows, r.length = t.cols.length) ∧ t.cols.Nodup

instance (t : Table) : Decidable t.WF := by
  unfold Table.WF; infer_instance

/-- Index of the first occurrence of a name in a header list. -/
def idxEn (c : String) : List String → Option Nat
  | [] => none
  | x :: xs => if x = c then some 0 else (idxEn c xs).map (· + 1)

/-- Index of a column name in the header. -/
def Table.idxCol (t : Table) (c : String) : Option Nat :=
  idxEn c t.cols

/-- Reading a whole column (pandas tabla[c]); missing cells read as null.
Returns the empty list when the column is absent; fallible access is
getColE below. -/
def Table.getCol (t : Table) (c : String) : List Cell :=
  match t.idxCol c with
  | some i => t.rows.map (fun r => r.getD i Cell.null)
  | none => []

/-- Column access as the Python subscript tabla[c]: raises KeyError when the
column is absent. -/
def Table.getColE (t : Table) (c : String) : Except PyError (List Cell) :=
  match t.idxCol c with
  | some _ => .ok (t.getCol c)
  | none => .error (.keyError c)

/-- In-place column update tabla[c] = f(tabla[c]), the shape of every column
assignment performed by the cleaner.  When the column is absent this is the
identity (all uses in the embedding are guarded by a getColE that has
already raised). -/
def Table.mapCol (t : Table) (c : String) (f : Cell → Cell) : Table :=
  match t.idxCol c with
  | some i => ⟨t.cols, t.rows.map (fun r => r.set i (f (r.getD i Cell.null)))⟩
  | none => t

/-- Row filtering by a predicate on one column, the shape of
tabla = tabla[mask(tabla[c])] and of dropna(subset=[c]). -/
def Table.filterCol (t : Table) (c : String) (p : Cell → Bool) : Table :=
  match t.idxCol c with
  | some i => ⟨t.cols, t.rows.filter (fun r => p (r.getD i Cell.null))⟩
  | none => t

/-- Count of the cells of a column satisfying a predicate, the shape of
mask(tabla[c]).sum(). -/
def Table.countCol (t : Table) (c : String) (p : Cell → Bool) : Nat :=
  (t.getCol c).countP p

/-- Number of rows, len(tabla). -/
def Table.nRows (t : Table) : Nat := t.rows.length

/-- Civil day number of a calendar date (days since 1970-01-01, the
days-from-civil algorithm); the embedding of a pandas Timestamp at day
granularity. -/
def diaCivil (y m d : Int) : Int :=
  let y2 := if m ≤ 2 then y - 1 else y
  let era := (if 0 ≤ y2 then y2 else y2 - 399) / 400
  let yoe := y2 - era * 400
  let mp := (m + 9) % 12
  let doy := (153 * mp + 2) / 5 + d - 1
  let doe := yoe * 365 + yoe / 4 - yoe / 100 + doy
  era * 146097 + doe - 719468

/-
---------------------------------------------------------------------------
nucleo/filtros.py — ComparadorPeriodos
---------------------------------------------------------------------------
-/

/-- ComparadorPeriodos.obtener_periodos (filtros.py:56-73): given the
current period, returns ((inicio_actual, fin_actual),
(inicio_anterior, fin_anterior)) with duracion = fecha_fin - fecha_inicio,
inicio_anterior = fecha_inicio - duracion - 1 day,
fin_anterior = fecha_inicio - 1 day.  Timestamps are civil day numbers and
timedelta(days=1) is the integer 1. -/
def obtener_periodos (fecha_inicio fecha_fin : Int) :
    (Int × Int) × (Int × Int) :=
  let duracion := fecha_fin - fecha_inicio
  let inicio_anterior := fecha_inicio - duracion - 1
  let fin_anterior := fecha_inicio - 1
  ((fecha_inicio, fecha_fin), (inicio_anterior, fin_anterior))

/-- Result of ComparadorPeriodos.comparar_metricas (the dict returned at
filtros.py:88-94). -/
structure ComparacionMetricas where
  actual : Rat
  anterior : Rat
  diferencia : Rat
  variacion_pct : Rat
deriving DecidableEq, Repr

/-- ComparadorPeriodos.comparar_metricas (filtros.py:75-94):
diferencia = actual - anterior and
variacion_pct = (diferencia / anterior) * 100 when anterior is nonzero,
else 0.0. -/
def comparar_metricas (valor_actual valor_anterior : Rat) : ComparacionMetricas :=
  let diferencia := valor_actual - valor_anterior
  let variacion_pct :=
    if valor_anterior ≠ 0 then (diferencia / valor_anterior) * 100 else 0
  ⟨valor_actual, valor_anterior, diferencia, variacion_pct⟩

/-
---------------------------------------------------------------------------
nucleo/contratos.py — EsquemaDatosVentas.esquema_por_defecto
---------------------------------------------------------------------------
-/

/-- Required canonical columns (contratos.py:35-45). -/
def columnasRequeridas : List String :=
  ["fecha", "id_orden", "id_cliente", "id_producto",
   "cantidad", "precio", "costo", "region", "canal"]

/-- Alias-to-canonical map (contratos.py:47-73), as the association list of
the Python dict in source order. -/
def aliasAEstandar : List (String × String) :=
  [("date", "fecha"), ("fecha", "fecha"),
   ("order_id", "id_orden"), ("id_orden", "id_orden"),
   ("customer_id", "id_cliente"), ("id_cliente", "id_cliente"),
   ("product_id", "id_producto"), ("id_producto", "id_producto"),
   ("qty", "cantidad"), ("cantidad", "cantidad"),
   ("price", "precio"), ("precio", "precio"),
   ("cost", "costo"), ("costo", "costo"),
   ("region", "region"), ("región", "region"),
   ("canal", "canal"), ("channel", "canal")]

/-- Optional columns (contratos.py:75-79). -/
def columnasOpcionales : List String :=
  ["estado", "categoria", "nombre_producto"]

/-
---------------------------------------------------------------------------
nucleo/normalizacion.py — NormalizadorColumnas
---------------------------------------------------------------------------
-/

/-- Python str.lower() on the characters used by the schema: ASCII letters
plus the uppercase accented Latin letters of the Spanish column names. -/
def pyLowerChar (c : Char) : Char :=
  if 'A' ≤ c ∧ c ≤ 'Z' then Char.ofNat (c.toNat + 32)
  else if c = 'Á' then 'á'
  else if c = 'É' then 'é'
  else if c = 'Í' then 'í'
  else if c = 'Ó' then 'ó'
  else if c = 'Ú' then 'ú'
  else if c = 'Ñ' then 'ñ'
  else if c = 'Ü' then 'ü'
  else c

/-- Python str.strip(): drop leading and trailing whitespace. -/
def pyStrip (s : String) : String :=
  String.mk (((s.toList.dropWhile Char.isWhitespace).reverse.dropWhile
    Char.isWhitespace).reverse)

/-- Model of re.sub of one-or-more whitespace by a single space: collapse
every whitespace run to one space.  The flag records whether the previous
character was part of a whitespace run. -/
def colapsarEspacios : Bool → List Char → List Char
  | _, [] => []
  | enRun, c :: cs =>
    if c.isWhitespace then
      if enRun then colapsarEspacios true cs
      else ' ' :: colapsarEspacios true cs
    else c :: colapsarEspacios false cs

/-- NormalizadorColumnas._limpiar_nombre_columna (normalizacion.py:24-37):
strip, lowercase, collapse whitespace runs to one space, then replace
spaces by underscores. -/
def limpiarNombreColumna (nombre : String) : String :=
  let paso1 := (pyStrip nombre).toList.map pyLowerChar
  let paso2 := colapsarEspacios false paso1
  String.mk (paso2.map fun c => if c = ' ' then '_' else c)

/-- NormalizadorColumnas._construir_mapa_renombre applied to one column
(normalizacion.py:39-53): rename to the canonical name when the cleaned
key is an alias, else keep the cleaned key. -/
def renombrarColumna (col : String) : String :=
  let col_limpia := limpiarNombreColumna col
  match List.lookup col_limpia aliasAEstandar with
  | some estandar => estandar
  | none => col_limpia

/-- NormalizadorColumnas.normalizar (normalizacion.py:55-65): a new table
with every column name renamed via the rename map; rows untouched. -/
def normalizar (t : Table) : Table :=
  ⟨t.cols.map renombrarColumna, t.rows⟩

/-
---------------------------------------------------------------------------
nucleo/validacion.py — ValidadorEsquemaCSV
---------------------------------------------------------------------------
-/

/-- Is the character an ASCII digit. -/
def esDigito (c : Char) : Bool := decide ('0' <= c) && decide (c <= '9')

/-- Numeric value of a digit string. -/
def valorDigitos (l : List Char) : Nat :=
  l.foldl (fun a c => a * 10 + (c.toNat - 48)) 0

/-- Model of the numeric-literal parsing performed by pandas to_numeric on
a string cell: optional sign, an integer part, an optional fractional
part.  (The real parser also accepts exponents and surrounding whitespace;
the model covers the forms exercised here, and every string it accepts is
accepted by pandas.) -/
def parseNum (s : String) : Option Rat :=
  let conSigno : Rat -> Rat :=
    match s.toList with
    | chr :: _ => if chr = Char.ofNat 45 then (fun q => -q) else id
    | [] => id
  let resto :=
    match s.toList with
    | chr :: r => if chr = Char.ofNat 45 || chr = '+' then r else s.toList
    | [] => []
  let entera := resto.takeWhile esDigito
  let resto2 := resto.dropWhile esDigito
  if entera.isEmpty then none
  else
    match resto2 with
    | [] => some (conSigno (valorDigitos entera))
    | chr :: frac =>
      if chr = '.' && !frac.isEmpty && frac.all esDigito then
        some (conSigno ((valorDigitos entera : Rat) +
          (valorDigitos frac : Rat) / ((10 : Rat) ^ frac.length)))
      else none

/-- Model of permissive date parsing (pandas to_datetime auto-detection)
for a string cell, restricted to ISO dates year-month-day; other formats
the real parser accepts are out of the model. -/
def parseFecha (s : String) : Option Int :=
  match s.splitOn "-" with
  | [a, m, d] =>
    if !a.isEmpty && a.toList.all esDigito &&
       !m.isEmpty && m.toList.all esDigito &&
       !d.isEmpty && d.toList.all esDigito then
      some (diaCivil (valorDigitos a.toList) (valorDigitos m.toList)
        (valorDigitos d.toList))
    else none
  | _ => none

/-- Is the cell null (pandas isna). -/
def esNulo : Cell -> Bool
  | .null => true
  | _ => false

/-- pd.to_datetime(col, errors="raise") succeeding on every cell: the
permissive branch of _columna_fecha_convertible (validacion.py:85-93,
formato_fecha = None).  Dates, numbers and nulls convert (nulls to NaT);
strings convert when they parse as dates. -/
def fechaConvertiblePermisiva (col : List Cell) : Bool :=
  col.all fun c =>
    match c with
    | .str s => (parseFecha s).isSome
    | _ => true

/-- ValidadorEsquemaCSV._columna_numerica_convertible (validacion.py:95-99):
pd.to_numeric(col, errors="raise") wrapped in try/except — true when every
cell converts: numbers and nulls do, a string only when it parses as a
numeric literal, a Timestamp does not. -/
def columnaNumericaConvertible (col : List Cell) : Bool :=
  col.all fun c =>
    match c with
    | .num _ => true
    | .null => true
    | .str s => (parseNum s).isSome
    | .date _ => false

/-- One elementwise comparison of the pandas Series comparison col < 0: a
numeric cell compares with 0, NaN compares false, while a string (or
Timestamp) cell raises TypeError, because Python refuses to order str (or
Timestamp) against int and the pandas object-dtype comparison loop does
not catch that for order operators. -/
def celdaNegativaE : Cell -> Except PyError Bool
  | .num q => .ok (decide (q < 0))
  | .null => .ok false
  | .str _ => .error (.typeError "comparacion de orden entre str e int no soportada")
  | .date _ => .error (.typeError "comparacion de orden entre Timestamp e int no soportada")

/-- (tabla[col] < 0).any(): evaluate the elementwise comparison over the
whole column — raising on the first unsupported cell — then fold any. -/
def serieAlgunaNegativaE : List Cell -> Except PyError Bool
  | [] => .ok false
  | c :: cs => do
    let b <- celdaNegativaE c
    let bs <- serieAlgunaNegativaE cs
    .ok (b || bs)

/-- Result of a validation (contratos.py:86-96). -/
structure ResultadoValidacion where
  es_valido : Bool
  errores : List String
  advertencias : List String
deriving DecidableEq, Repr

/-- Validation and cleaning message texts.  The Python originals quote
column names with apostrophes and format numbers with thousands
separators; the model keeps the cited numbers and names and drops that
punctuation. -/
def errTamano (filas maximo : Nat) : String :=
  s!"El archivo tiene {filas} filas y excede el máximo permitido ({maximo}). Usa un archivo más pequeño o filtra los datos."

/-- Message of the missing-required-columns blocking error, listing the
missing names in schema order (validacion.py:39-44). -/
def errFaltantes (faltantes : List String) : String :=
  "Faltan columnas requeridas en el archivo: " ++
    String.intercalate ", " faltantes ++ "."

/-- Message of the date-convertibility blocking error (validacion.py:51-55). -/
def errFechaNoConvertible : String :=
  "La columna fecha no se pudo convertir a formato fecha. Asegúrate de que tenga valores como 2025-01-31 o 31/01/2025."

/-- Message of a numeric-convertibility blocking error (validacion.py:57-62). -/
def errNumericaNoConvertible (col : String) : String :=
  s!"La columna {col} no se pudo convertir a número. Revisa que no tenga texto o símbolos."

/-- Advisory message for empty values in a numeric column (validacion.py:64-70). -/
def advVacios (col : String) : String :=
  s!"Hay valores vacíos en {col}. Se tratarán como 0 si se limpia el dataset."

/-- Advisory messages for negative values (validacion.py:72-78). -/
def advNegCantidad : String :=
  "Se detectaron cantidades negativas. Revisa si son devoluciones o errores."

/-- Advisory message for negative prices (validacion.py:76). -/
def advNegPrecio : String := "Se detectaron precios negativos. Revisa el CSV."

/-- Advisory message for negative costs (validacion.py:78). -/
def advNegCosto : String := "Se detectaron costos negativos. Revisa el CSV."

/-- ValidadorEsquemaCSV.validar (validacion.py:24-82).  The row-count check
and the required-columns check return early; the date and numeric
convertibility checks accumulate blocking errors; the advisory
negative-value checks perform pandas order comparisons, which raise
TypeError on string content.  The date-convertibility check depends on the
configured date format and is abstracted as the parameter fechaOk (whose
permissive default instantiation is fechaConvertiblePermisiva); max_filas
is config.max_filas_csv.  Steps 3-6 read only columns whose presence step
2 has just guaranteed, so those subscripts are total here. -/
def validarE (fechaOk : List Cell -> Bool) (max_filas : Nat) (t : Table) :
    Except PyError ResultadoValidacion := do
  if t.nRows > max_filas then
    return ⟨false, [errTamano t.nRows max_filas], []⟩
  let faltantes := columnasRequeridas.filter (fun c => !(t.cols.contains c))
  let errores1 := if faltantes.isEmpty then [] else [errFaltantes faltantes]
  if !errores1.isEmpty then
    return ⟨false, errores1, []⟩
  let errores2 := errores1 ++
    (if fechaOk (t.getCol "fecha") then [] else [errFechaNoConvertible])
  let errores3 := errores2 ++
    (if columnaNumericaConvertible (t.getCol "cantidad") then []
     else [errNumericaNoConvertible "cantidad"])
  let errores4 := errores3 ++
    (if columnaNumericaConvertible (t.getCol "precio") then []
     else [errNumericaNoConvertible "precio"])
  let errores5 := errores4 ++
    (if columnaNumericaConvertible (t.getCol "costo") then []
     else [errNumericaNoConvertible "costo"])
  let adv1 := if (t.getCol "cantidad").any esNulo then [advVacios "cantidad"] else []
  let adv2 := adv1 ++ (if (t.getCol "precio").any esNulo then [advVacios "precio"] else [])
  let adv3 := adv2 ++ (if (t.getCol "costo").any esNulo then [advVacios "costo"] else [])
  let negCantidad <- serieAlgunaNegativaE (t.getCol "cantidad")
  let adv4 := adv3 ++ (if negCantidad then [advNegCantidad] else [])
  let negPrecio <- serieAlgunaNegativaE (t.getCol "precio")
  let adv5 := adv4 ++ (if negPrecio then [advNegPrecio] else [])
  let negCosto <- serieAlgunaNegativaE (t.getCol "costo")
  let adv6 := adv5 ++ (if negCosto then [advNegCosto] else [])
  return ⟨errores5.isEmpty, errores5, adv6⟩

/-
---------------------------------------------------------------------------
nucleo/etl.py — LimpiadorDatos and TransformadorVentas
---------------------------------------------------------------------------
-/

/-- pd.to_datetime(col, errors="coerce") on one cell (etl.py:34): dates
stay, strings parse to a date or become NaT, numbers convert (pandas
interprets them as epoch offsets; at the day granularity of the model,
their floor), nulls stay NaT. -/
def coerceFechaCelda : Cell -> Cell
  | .date d => .date d
  | .str s =>
    match parseFecha s with
    | some d => .date d
    | none => .null
  | .num q => .date q.floor
  | .null => .null

/-- pd.to_numeric(col, errors="coerce") on one cell (etl.py:44): numbers
stay, strings parse to a number or become NaN, nulls stay NaN, Timestamps
coerce to NaN in the model. -/
def coerceNumCelda : Cell -> Cell
  | .num q => .num q
  | .str s =>
    match parseNum s with
    | some q => .num q
    | none => .null
  | .null => .null
  | .date _ => .null

/-- fillna(0) on one cell (etl.py:51). -/
def llenarCeroCelda : Cell -> Cell
  | .null => .num 0
  | c => c

/-- Elementwise mask cell < 0 on a column already coerced to numeric dtype
(float): NaN < 0 is false and no TypeError is possible. -/
def negativaNum : Cell -> Bool
  | .num q => decide (q < 0)
  | _ => false

/-- Elementwise mask cell >= 0 on a numeric-dtype column (NaN >= 0 is
false). -/
def noNegativaNum : Cell -> Bool
  | .num q => decide (0 <= q)
  | _ => false

/-- Cleaning message for rows dropped for an invalid date (etl.py:36-39). -/
def advFechaInvalida (n : Nat) : String :=
  s!"Se encontraron {n} filas con fecha inválida; fueron eliminadas."

/-- Cleaning message for non-numeric values replaced by 0 (etl.py:46-50). -/
def advNoNumericos (n : Nat) (col : String) : String :=
  s!"Se encontraron {n} valores no numéricos/vacíos en {col}; se reemplazaron por 0."

/-- Cleaning message for dropped negative-quantity rows (etl.py:56-59). -/
def advCantidadNegativa (n : Nat) : String :=
  s!"Se encontraron {n} filas con cantidad negativa; fueron eliminadas."

/-- Cleaning message for dropped negative-price rows (etl.py:66-69). -/
def advPrecioNegativo (n : Nat) : String :=
  s!"Se encontraron {n} filas con precio negativo; fueron eliminadas."

/-- Cleaning message for dropped negative-cost rows (etl.py:72-75). -/
def advCostoNegativo (n : Nat) : String :=
  s!"Se encontraron {n} filas con costo negativo; fueron eliminadas."

/-- Report of a cleaning pass (etl.py:9-17). -/
structure ResultadoLimpieza where
  filas_eliminadas : Nat
  advertencias : List String
deriving DecidableEq, Repr

/-- One iteration of the numeric-conversion loop (etl.py:43-51): coerce the
column to numeric; when nulls appear, append the warning and fill them
with 0. -/
def limpiarColumnaNumerica (t : Table) (adv : List String) (col : String) :
    Table × List String :=
  let t1 := t.mapCol col coerceNumCelda
  let nulos := t1.countCol col esNulo
  if nulos > 0 then
    (t1.mapCol col llenarCeroCelda, adv ++ [advNoNumericos nulos col])
  else (t1, adv)

/-- Steps 1-2 of LimpiadorDatos.limpiar (etl.py:33-51): date coercion,
warning and drop of dateless rows, then numeric conversion of cantidad,
precio and costo in that order. -/
def fasePreNegativos (t : Table) : Table × List String :=
  let t1 := t.mapCol "fecha" coerceFechaCelda
  let filas_sin_fecha := t1.countCol "fecha" esNulo
  let adv1 : List String :=
    if filas_sin_fecha > 0 then [advFechaInvalida filas_sin_fecha] else []
  let t2 := t1.filterCol "fecha" (fun c => !esNulo c)
  let par3 := limpiarColumnaNumerica t2 adv1 "cantidad"
  let par4 := limpiarColumnaNumerica par3.1 par3.2 "precio"
  limpiarColumnaNumerica par4.1 par4.2 "costo"

/-- The table produced by the negative-value drops of step 3 of the
cleaner (etl.py:53-75), starting from the state after the conversion
phase: count and conditionally drop negative cantidades, then count
negative precios and negative costos (both on the state after the
cantidad drop), then conditionally drop precios and costos. -/
def faseNegTabla (t5 : Table) : Table :=
  let negativas := t5.countCol "cantidad" negativaNum
  let t6 := if negativas > 0 then t5.filterCol "cantidad" noNegativaNum else t5
  let precio_neg := t6.countCol "precio" negativaNum
  let costo_neg := t6.countCol "costo" negativaNum
  let t7 := if precio_neg > 0 then t6.filterCol "precio" noNegativaNum else t6
  if costo_neg > 0 then t7.filterCol "costo" noNegativaNum else t7

/-- The body of LimpiadorDatos.limpiar (etl.py:28-84) as a pure function of
the copy the body makes of its argument.  After steps 1-2, the negative
drops of step 3: count negative quantities on the current state and drop;
then count negative prices and negative costs — both on the state after
the quantity drop and before the price drop, exactly as the source orders
the statements — and drop prices then costs; finally report
rows_removed = initial rows - final rows and the accumulated warnings. -/
def limpiarCuerpo (t : Table) : Table × ResultadoLimpieza :=
  let filas_iniciales := t.nRows
  let fase := fasePreNegativos t
  let t5 := fase.1
  let negativas := t5.countCol "cantidad" negativaNum
  let adv5 := fase.2 ++ (if negativas > 0 then [advCantidadNegativa negativas] else [])
  let t6 := if negativas > 0 then t5.filterCol "cantidad" noNegativaNum else t5
  let precio_neg := t6.countCol "precio" negativaNum
  let costo_neg := t6.countCol "costo" negativaNum
  let adv6 := adv5 ++ (if precio_neg > 0 then [advPrecioNegativo precio_neg] else [])
  let adv7 := adv6 ++ (if costo_neg > 0 then [advCostoNegativo costo_neg] else [])
  let t8 := faseNegTabla t5
  (t8, ⟨filas_iniciales - t8.nRows, adv7⟩)

/-- LimpiadorDatos.limpiar (etl.py:28-84).  The method starts by rebinding
its parameter to tabla.copy(), so every in-place write hits the copy; the
copy is the value t here.  The four column subscripts the body performs
are hoisted as guards in source order (fecha, cantidad, precio, costo) —
behavior-preserving, because no step changes the column set — and raise
KeyError when a column is absent; the rest of the body is total. -/
def limpiarE (t : Table) : Except PyError (Table × ResultadoLimpieza) := do
  let _ <- t.getColE "fecha"
  let _ <- t.getColE "cantidad"
  let _ <- t.getColE "precio"
  let _ <- t.getColE "costo"
  return limpiarCuerpo t

/-- Overwrite or create a column from a computed series, the shape of
tabla[c] = serie (pandas aligns by position here since every series is
derived from the same frame). -/
def Table.setCol (t : Table) (c : String) (vals : List Cell) : Table :=
  match t.idxCol c with
  | some i => ⟨t.cols, (t.rows.zip vals).map fun rv => rv.1.set i rv.2⟩
  | none => ⟨t.cols ++ [c], (t.rows.zip vals).map fun rv => rv.1 ++ [rv.2]⟩

/-- Elementwise product of two numeric series (tabla[a] * tabla[b]):
numbers multiply; NaN propagates.  Operands of other kinds are outside the
post-cleaning dtypes and map to null in the model. -/
def multiplicarCeldas : Cell -> Cell -> Cell
  | .num a, .num b => .num (a * b)
  | _, _ => .null

/-- Elementwise difference of two numeric series (tabla[a] - tabla[b]). -/
def restarCeldas : Cell -> Cell -> Cell
  | .num a, .num b => .num (a - b)
  | _, _ => .null

/-- Elementwise mask cell > 0 on a numeric series. -/
def positivaNum : Cell -> Bool
  | .num q => decide (0 < q)
  | _ => false

/-- Elementwise quotient, used only under the mask ingresos > 0. -/
def dividirCeldas : Cell -> Cell -> Cell
  | .num a, .num b => .num (a / b)
  | _, _ => .null

/-- TransformadorVentas.transformar (etl.py:95-107): on a copy, derive
ingresos = cantidad * precio, costo_total = cantidad * costo,
margen = ingresos - costo_total, and margen_porcentaje = 0.0 overwritten
with margen / ingresos on the rows where ingresos > 0. -/
def transformarE (t : Table) : Except PyError Table := do
  let cantidad <- t.getColE "cantidad"
  let precio <- t.getColE "precio"
  let t1 := t.setCol "ingresos" (List.zipWith multiplicarCeldas cantidad precio)
  let costo <- t1.getColE "costo"
  let t2 := t1.setCol "costo_total"
    (List.zipWith multiplicarCeldas (t1.getCol "cantidad") costo)
  let t3 := t2.setCol "margen"
    (List.zipWith restarCeldas (t2.getCol "ingresos") (t2.getCol "costo_total"))
  let t4 := t3.setCol "margen_porcentaje"
    ((t3.getCol "ingresos").map fun _ => Cell.num 0)
  let t5 := t4.setCol "margen_porcentaje"
    (List.zipWith
      (fun m i => if positivaNum i then dividirCeldas m i else Cell.num 0)
      (t4.getCol "margen") (t4.getCol "ingresos"))
  return t5

/-
---------------------------------------------------------------------------
nucleo/filtros.py — FiltroSeleccion and FiltroDatos
---------------------------------------------------------------------------
-/

/-- FiltroSeleccion (filtros.py:10-19): the user-chosen filters; None for a
categorical field means no filter. -/
structure FiltroSeleccion where
  fecha_inicio : Int
  fecha_fin : Int
  region : Option String := none
  canal : Option String := none
  id_producto : Option String := none

/-- Elementwise comparison cell >= bound against a Timestamp: dates
compare, NaT compares false, strings and numbers raise TypeError when
ordered against a Timestamp. -/
def celdaDesdeFechaE (z : Int) : Cell -> Except PyError Bool
  | .date d => .ok (decide (z <= d))
  | .null => .ok false
  | _ => .error (.typeError "comparacion de orden con Timestamp no soportada")

/-- Elementwise comparison cell <= bound against a Timestamp. -/
def celdaHastaFechaE (z : Int) : Cell -> Except PyError Bool
  | .date d => .ok (decide (d <= z))
  | .null => .ok false
  | _ => .error (.typeError "comparacion de orden con Timestamp no soportada")

/-- Elementwise mask of a whole series, raising on the first unsupported
cell. -/
def mascaraE (p : Cell -> Except PyError Bool) : List Cell -> Except PyError (List Bool)
  | [] => .ok []
  | c :: cs => do
    let b <- p c
    let bs <- mascaraE p cs
    .ok (b :: bs)

/-- Boolean-mask row selection tabla[mask], building a new frame. -/
def Table.filtrarMascara (t : Table) (m : List Bool) : Table :=
  ⟨t.cols, (t.rows.zip m).filterMap fun rb => if rb.2 then some rb.1 else none⟩

/-- One categorical equality filter (filtros.py:36-46): skipped when the
selection is None, falsy (the empty string) or the all sentinel; otherwise
keep the rows whose cell equals the selected string (pandas equality
comparison never raises; NaN compares unequal). -/
def filtrarCategoriaE (t : Table) (col : String) (sel : Option String)
    (centinela : String) : Except PyError Table :=
  match sel with
  | some v =>
    if v ≠ "" && v ≠ centinela then do
      let serie <- t.getColE col
      pure (t.filtrarMascara (serie.map fun c => decide (c = Cell.str v)))
    else pure t
  | none => pure t

/-- FiltroDatos.aplicar (filtros.py:27-48): on a copy, keep the rows inside
the inclusive date range, then apply the optional region, canal and
id_producto equality filters in that order. -/
def aplicarE (t : Table) (filtros : FiltroSeleccion) : Except PyError Table := do
  let fechas <- t.getColE "fecha"
  let desde <- mascaraE (celdaDesdeFechaE filtros.fecha_inicio) fechas
  let hasta <- mascaraE (celdaHastaFechaE filtros.fecha_fin) fechas
  let t1 := t.filtrarMascara (List.zipWith (fun a b => a && b) desde hasta)
  let t2 <- filtrarCategoriaE t1 "region" filtros.region "Todas"
  let t3 <- filtrarCategoriaE t2 "canal" filtros.canal "Todos"
  let t4 <- filtrarCategoriaE t3 "id_producto" filtros.id_producto "Todos"
  return t4

/-- Call-site semantics of a stage: the pair (the table binding the caller
holds after the call, the call outcome).  Every stage body begins by
rebinding to tabla.copy() (normalizacion.py:60, etl.py:29, etl.py:102,
filtros.py:28), so the in-place writes inside the body hit the copy and
the value the caller holds is unchanged by the call. -/
def llamarNormalizar (t : Table) : Table × Table :=
  (t, normalizar t)

/-- Call-site semantics of LimpiadorDatos.limpiar. -/
def llamarLimpiar (t : Table) : Table × Except PyError (Table × ResultadoLimpieza) :=
  (t, limpiarE t)

/-- Call-site semantics of TransformadorVentas.transformar. -/
def llamarTransformar (t : Table) : Table × Except PyError Table :=
  (t, transformarE t)

/-- Call-site semantics of FiltroDatos.aplicar. -/
def llamarAplicar (t : Table) (f : FiltroSeleccion) : Table × Except PyError Table :=
  (t, aplicarE t f)

/-
---------------------------------------------------------------------------
nucleo/pronostico.py — PronosticadorVentasLineal
---------------------------------------------------------------------------
-/

/-- A row of the table handed to the forecaster, projected to the columns
it reads (fecha, ingresos). -/
structure FilaPron where
  fecha : Int
  ingresos : Rat
deriving DecidableEq, Repr

/-- Insert a key into a sorted duplicate-free list, keeping it sorted and
duplicate-free. -/
def insertarOrdenado (x : Int) : List Int → List Int
  | [] => [x]
  | y :: ys =>
    if x < y then x :: y :: ys
    else if x = y then y :: ys
    else y :: insertarOrdenado x ys

/-- The sorted distinct keys of a column: the group keys that
groupby("fecha") produces, in the ascending order that
sort_values("fecha") guarantees. -/
def fechasUnicas (l : List Int) : List Int :=
  l.foldr insertarOrdenado []

/-- diario = tabla.groupby("fecha").agg(ingresos sum).sort_values("fecha")
(pronostico.py:43-48): one row per distinct date in ascending order, with
the summed ingresos of that date. -/
def agregarDiario (tabla : List FilaPron) : List (Int × Rat) :=
  (fechasUnicas (tabla.map (·.fecha))).map fun f =>
    (f, ((tabla.filter (fun r => r.fecha = f)).map (·.ingresos)).sum)

/-- diario["dia_idx"] = np.arange(len(diario)) (pronostico.py:51): the
0-based consecutive ordinal indices assigned to the aggregated days. -/
def indicesDia (tabla : List FilaPron) : List Nat :=
  List.range (agregarDiario tabla).length

/-- Ordinary least squares of ingresos against the ordinal day index
(pronostico.py:53-57, sklearn LinearRegression): (slope, intercept); on a
degenerate design (a single day) the centered least squares of sklearn
yields slope 0 and intercept the mean. -/
def ajustarRectaMC (ys : List Rat) : Rat × Rat :=
  if ys.length = 0 then (0, 0) else
  let n : Rat := ys.length
  let xs : List Rat := (List.range ys.length).map (fun i : Nat => (i : Rat))
  let mx := xs.sum / n
  let my := ys.sum / n
  let sxx := (xs.map (fun x => (x - mx) * (x - mx))).sum
  let sxy := (List.zipWith (fun x y => (x - mx) * (y - my)) xs ys).sum
  let pend := if sxx = 0 then 0 else sxy / sxx
  (pend, my - pend * mx)

/-- Largest element of a list, 0 on the empty list (pandas .max() is only
taken on nonempty columns here). -/
def maximoDe : List Int → Int
  | [] => 0
  | x :: xs => xs.foldl max x

/-- A row of the forecast output table (fecha, ingresos, tipo). -/
structure FilaPronSalida where
  fecha : Int
  ingresos : Rat
  tipo : String
deriving DecidableEq, Repr

/-- ResultadoPronostico (pronostico.py:11-19): the Real + Pronóstico table
and the fitted model, exposed as its slope and intercept. -/
structure ResultadoPronostico where
  tabla : List FilaPronSalida
  pendiente : Rat
  intercepto : Rat
deriving DecidableEq, Repr

/-- tabla_real (pronostico.py:71-72): the daily aggregation labeled
Real. -/
def tablaReal (tabla : List FilaPron) : List FilaPronSalida :=
  (agregarDiario tabla).map fun d => FilaPronSalida.mk d.1 d.2 "Real"

/-- tabla_futura (pronostico.py:59-79): the dias_futuros future ordinal
indices idx_futuro = arange(ultimo_idx + 1, ultimo_idx + dias_futuros + 1)
continuing the sequence, the matching calendar dates
date_range(diario fecha max + 1 day, periods = dias_futuros, freq = "D"),
the line predictions over idx_futuro, zipped and labeled Pronóstico. -/
def tablaFutura (tabla : List FilaPron) (dias_futuros : Nat) :
    List FilaPronSalida :=
  let diario := agregarDiario tabla
  let ajuste := ajustarRectaMC (diario.map (·.2))
  let ultimo_idx := (indicesDia tabla).length - 1
  let idx_futuro := List.range' (ultimo_idx + 1) dias_futuros
  let fechas_futuras := (List.range dias_futuros).map
    (fun k : Nat => maximoDe (diario.map (·.1)) + 1 + (k : Int))
  let ingresos_futuros := idx_futuro.map
    (fun i : Nat => ajuste.2 + ajuste.1 * (i : Rat))
  (List.zip fechas_futuras ingresos_futuros).map
    fun p => FilaPronSalida.mk p.1 p.2 "Pronóstico"

/-- PronosticadorVentasLineal.entrenar_y_pronosticar (pronostico.py:28-88):
raise ValueError on an empty input (no fit attempted); aggregate ingresos
per day sorted ascending; assign ordinal day indices; fit the line; and
return the Real rows followed by the Pronóstico rows, with the fitted
model. -/
def entrenar_y_pronosticar (tabla : List FilaPron) (dias_futuros : Nat) :
    Except String ResultadoPronostico :=
  if tabla.isEmpty then
    .error "No hay datos para generar pronóstico."
  else
    let ajuste := ajustarRectaMC ((agregarDiario tabla).map (·.2))
    .ok ⟨tablaReal tabla ++ tablaFutura tabla dias_futuros, ajuste.1, ajuste.2⟩

/-
---------------------------------------------------------------------------
nucleo/insights.py — GeneradorInsights
---------------------------------------------------------------------------
-/

/-- A row of the tables handed to the insight generator, projected to the
columns it reads; region and canal are optional (None models NaN). -/
structure FilaBI where
  id_producto : String
  ingresos : Rat
  margen : Rat
  cantidad : Rat
  region : Option String
  canal : Option String
deriving DecidableEq, Repr

/-- An insight (insights.py:9-13): title and category.  The mensaje field
is a presentation string interpolating the same numbers and is not
modelled. -/
structure Insight where
  titulo : String
  tipo : String
deriving DecidableEq, Repr

/-- Insert a key into a sorted duplicate-free list of strings. -/
def insertarClave (x : String) : List String → List String
  | [] => [x]
  | y :: ys =>
    if x < y then x :: y :: ys
    else if x = y then y :: ys
    else y :: insertarClave x ys

/-- The sorted distinct keys of a string column: the group keys that
groupby produces (sort=True). -/
def clavesUnicas (l : List String) : List String :=
  l.foldr insertarClave []

/-- One aggregated row of por_producto (insights.py:112-120). -/
structure AgregadoProducto where
  id_producto : String
  ingresos : Rat
  margen : Rat
  cantidad : Rat
deriving DecidableEq, Repr

/-- por_producto (insights.py:112-120): group by id_producto and sum
ingresos, margen and cantidad, one row per distinct product in key
order. -/
def porProducto (tabla : List FilaBI) : List AgregadoProducto :=
  (clavesUnicas (tabla.map (·.id_producto))).map fun p =>
    let filas := tabla.filter (fun r => r.id_producto = p)
    ⟨p, (filas.map (·.ingresos)).sum, (filas.map (·.margen)).sum,
      (filas.map (·.cantidad)).sum⟩

/-- por_producto.sort_values("ingresos", ascending=False).iloc[0]: the row
with maximal ingresos; on revenue ties the first product in key order is
kept (the model of the tie left unspecified by the unstable sort). -/
def filaLider : List AgregadoProducto → Option AgregadoProducto
  | [] => none
  | x :: xs =>
    some (xs.foldl
      (fun mejor fila => if fila.ingresos > mejor.ingresos then fila else mejor) x)

/-- Block 4 of generar (insights.py:112-141): the leading-product insight,
skipped when por_producto is empty; positive when the leading product
margin percentage (0 when its revenue is not positive) is at least 15,
negative otherwise. -/
def parteProducto (tabla_actual : List FilaBI) : List Insight :=
  match filaLider (porProducto tabla_actual) with
  | some top =>
    let margen_pct :=
      if top.ingresos > 0 then (top.margen / top.ingresos) * 100 else 0
    [Insight.mk "Producto líder y rentabilidad"
      (if margen_pct < 15 then "negativo" else "positivo")]
  | none => []

/-- Block 5 of generar (insights.py:143-152): the concentration-risk
insight, emitted exactly when the leading product share of the grouped
total revenue (0 when the total is not positive) is at least 60
percent. -/
def parteConcentracion (tabla_actual : List FilaBI) : List Insight :=
  match filaLider (porProducto tabla_actual) with
  | some top =>
    let total_ingresos := ((porProducto tabla_actual).map (·.ingresos)).sum
    let share_top :=
      if total_ingresos > 0 then (top.ingresos / total_ingresos) * 100 else 0
    if share_top ≥ 60 then [Insight.mk "Riesgo de concentración" "negativo"]
    else []
  | none => []

/-- Block 1 of generar (insights.py:42-74): the revenue-trend insight —
neutral no-historical-reference when the prior revenue is 0 and the
current positive, otherwise the comparison against the prior period with
category positive, negative or neutral by the sign of the percent
change. -/
def insightTendencia (tabla_actual tabla_anterior : List FilaBI) : Insight :=
  let ingresos_actual := (tabla_actual.map (·.ingresos)).sum
  let ingresos_anterior :=
    if tabla_anterior.isEmpty then 0
    else (tabla_anterior.map (·.ingresos)).sum
  let variacion_pct :=
    if ingresos_anterior ≠ 0 then
      ((ingresos_actual - ingresos_anterior) / ingresos_anterior) * 100
    else 0
  if ingresos_anterior = 0 ∧ ingresos_actual > 0 then
    Insight.mk "Ingresos sin referencia histórica" "neutral"
  else
    Insight.mk "Rendimiento vs período anterior"
      (if variacion_pct > 0 then "positivo"
       else if variacion_pct < 0 then "negativo" else "neutral")

/-- GeneradorInsights.generar (insights.py:24-152): the empty-input neutral
insight; the revenue-trend insight (neutral no-reference when the prior
revenue is 0 and the current positive); the leading-region insight
(positive) when any region is present; the leading-channel insight
(neutral) when any channel is present; the leading-product insight,
positive when its margin percentage (0 when its revenue is not positive)
is at least 15 and negative otherwise; and the concentration-risk insight
(negative) exactly when the leading product's share of the grouped total
revenue is at least 60 percent.  The filtros_descripcion argument only
feeds a message and is not modelled. -/
def generar (tabla_actual tabla_anterior : List FilaBI) : List Insight :=
  if tabla_actual.isEmpty then
    [Insight.mk "Sin datos" "neutral"]
  else
    let ins1 := insightTendencia tabla_actual tabla_anterior
    let insRegion :=
      if tabla_actual.any (fun r => r.region.isSome) then
        [Insight.mk "Región líder" "positivo"]
      else []
    let insCanal :=
      if tabla_actual.any (fun r => r.canal.isSome) then
        [Insight.mk "Canal más fuerte" "neutral"]
      else []
    [ins1] ++ insRegion ++ insCanal ++
      parteProducto tabla_actual ++ parteConcentracion tabla_actual

/-- A two-product table where product A holds a 70 percent revenue share
with a 30 percent margin: the concrete scenario of the concentration
example. -/
def ejemploConcentracion : List FilaBI :=
  [⟨"A", 70, 21, 1, none, none⟩, ⟨"B", 30, 3, 1, none, none⟩]

/-
===========================================================================
Theorems
===========================================================================
-/

/-- C1 counterexample: for the current period 2025-01-15 .. 2025-01-21 the
code returns the prior period (2025-01-08, 2025-01-14), not
(2025-01-07, 2025-01-14) as the claim states: with
duracion = fin - inicio = 6 days, inicio - duracion - 1 day is January 8. -/
theorem obtener_periodos_contraejemplo :
    (obtener_periodos (diaCivil 2025 1 15) (diaCivil 2025 1 21)).2 ≠
      (diaCivil 2025 1 7, diaCivil 2025 1 14) ∧
    (obtener_periodos (diaCivil 2025 1 15) (diaCivil 2025 1 21)).2 =
      (diaCivil 2025 1 8, diaCivil 2025 1 14) := by
  constructor
  · decide
  · decide

/-- C1 (amended): for the current period with start 2025-01-15 and end
2025-01-21, obtener_periodos returns the prior period
(2025-01-08, 2025-01-14), which is 7 days long inclusive like the current
period, contiguous with it (prior end + 1 day = current start), with no
gap and no overlap, per the formula
prior = (start - duration - 1day, start - 1day) with
duration = end - start. -/
theorem obtener_periodos_correcto :
    (∀ fi ff : Int,
      obtener_periodos fi ff =
        ((fi, ff), (fi - (ff - fi) - 1, fi - 1)) ∧
      (obtener_periodos fi ff).2.2 + 1 = fi ∧
      (obtener_periodos fi ff).2.2 < fi ∧
      ff - fi = (obtener_periodos fi ff).2.2 - (obtener_periodos fi ff).2.1) ∧
    obtener_periodos (diaCivil 2025 1 15) (diaCivil 2025 1 21) =
      ((diaCivil 2025 1 15, diaCivil 2025 1 21),
       (diaCivil 2025 1 8, diaCivil 2025 1 14)) ∧
    diaCivil 2025 1 14 - diaCivil 2025 1 8 = diaCivil 2025 1 21 - diaCivil 2025 1 15 := by
  refine ⟨fun fi ff => ⟨rfl, ?_, ?_, ?_⟩, by decide, by decide⟩
  · simp [obtener_periodos]
  · simp only [obtener_periodos]
    omega
  · simp only [obtener_periodos]
    ring

/-- C7: for every pair of metric values, comparar_metricas returns
delta = current - prior, and pct_change = (delta / prior) * 100 when the
prior is nonzero and 0 when the prior is zero regardless of the current
value; in particular (120, 100) gives delta 20 and pct_change 20.0, and
(50, 0) gives delta 50 and pct_change 0.0. -/
theorem comparar_metricas_correcto :
    (∀ va vp : Rat,
      comparar_metricas va vp =
        ⟨va, vp, va - vp, if vp = 0 then 0 else (va - vp) / vp * 100⟩) ∧
    comparar_metricas 120 100 = ⟨120, 100, 20, 20⟩ ∧
    comparar_metricas 50 0 = ⟨50, 0, 50, 0⟩ := by
  refine ⟨fun va vp => ?_, ?_, ?_⟩
  · by_cases h : vp = 0 <;> simp [comparar_metricas, h]
  · simp [comparar_metricas]
    norm_num
  · simp [comparar_metricas]

/-- C6 counterexample: the column name "région" (acute accent on the e, the
French spelling) is not renamed to "region" by normalizar: the alias table
only contains the Spanish spelling "región" (acute accent on the o), and
name cleaning does not strip accents. -/
theorem normalizar_region_contraejemplo :
    normalizar ⟨["région"], []⟩ ≠ ⟨["region"], []⟩ ∧
    normalizar ⟨["région"], []⟩ = ⟨["région"], []⟩ := by
  constructor
  · decide
  · decide

/-- C6 (amended): normalizar maps column names insensitively to casing and
surrounding/internal whitespace, and resolves exactly the accented
spellings listed in the alias table: " Región " and "REGION" are renamed
to the canonical column "region", while "région" (accent on the e, not an
alias) is left as "région". -/
theorem normalizar_region_correcto :
    normalizar ⟨[" Región "], []⟩ = ⟨["region"], []⟩ ∧
    normalizar ⟨["REGION"], []⟩ = ⟨["region"], []⟩ ∧
    normalizar ⟨["région"], []⟩ = ⟨["région"], []⟩ ∧
    ("région" : String) ≠ "region" := by
  refine ⟨by decide, by decide, by decide, by decide⟩

/-- C3 (code bug): validar raises on a table whose quantity column holds a
non-numeric string.  With every required column present, one row and
cantidad = "abc", the numeric-convertibility check records its blocking
error, but the advisory negative-value check then evaluates
(tabla[cantidad] < 0), an order comparison of str against int, which
raises TypeError — so validar does not return an accumulated result, in
contradiction with the claim that it never raises. -/
theorem validar_lanza_con_texto :
    columnaNumericaConvertible [Cell.str "abc"] = false ∧
    validarE fechaConvertiblePermisiva 500000
      ⟨columnasRequeridas,
       [[Cell.date 0, Cell.str "o1", Cell.str "c1", Cell.str "p1",
         Cell.str "abc", Cell.num 10, Cell.num 3, Cell.str "norte",
         Cell.str "web"]]⟩ =
    .error (.typeError "comparacion de orden entre str e int no soportada") := by
  exact ⟨rfl, rfl⟩

/-- C4 (code bug): the two short-circuits behave as claimed — an oversized
table yields exactly the single row-count error with no other check run,
and a table with missing required columns yields exactly the blocking
error listing the missing names — but the independent-accumulation branch
cannot deliver several errors in one result: on a table whose cantidad and
precio columns are both numerically unconvertible (so two independent
blocking errors have been accumulated), the advisory negative-value check
raises TypeError before the result is returned. -/
theorem validar_acumulacion_interrumpida :
    validarE fechaConvertiblePermisiva 0 ⟨["x"], [[Cell.str "a"]]⟩ =
      .ok ⟨false, [errTamano 1 0], []⟩ ∧
    validarE fechaConvertiblePermisiva 100 ⟨["fecha", "cantidad"], [[Cell.date 0, Cell.str "abc"]]⟩ =
      .ok ⟨false,
        [errFaltantes ["id_orden", "id_cliente", "id_producto",
          "precio", "costo", "region", "canal"]], []⟩ ∧
    columnaNumericaConvertible [Cell.str "abc"] = false ∧
    columnaNumericaConvertible [Cell.str "xyz"] = false ∧
    validarE fechaConvertiblePermisiva 500000
      ⟨columnasRequeridas,
       [[Cell.date 0, Cell.str "o1", Cell.str "c1", Cell.str "p1",
         Cell.str "abc", Cell.str "xyz", Cell.num 3, Cell.str "norte",
         Cell.str "web"]]⟩ =
    .error (.typeError "comparacion de orden entre str e int no soportada") := by
  exact ⟨rfl, rfl, rfl, rfl, rfl⟩

/-- C2: no pipeline stage mutates its input table: normalizar, limpiar,
transformar, and aplicar each leave the binding the caller holds unchanged
(each body starts by rebinding to tabla.copy(), so the in-place writes hit
the copy), and each call outcome is a function of the input value alone —
so applying two different filter selections to the same base table gives
the same two results as two independent applications to the pristine base,
with no interference. -/
theorem etapas_sin_mutacion :
    ∀ (t : Table) (f1 f2 : FiltroSeleccion),
      (llamarNormalizar t).1 = t ∧
      (llamarLimpiar t).1 = t ∧
      (llamarTransformar t).1 = t ∧
      (llamarAplicar t f1).1 = t ∧
      (llamarAplicar t f1).2 = aplicarE t f1 ∧
      (llamarAplicar ((llamarAplicar t f1).1) f2).2 = aplicarE t f2 :=
  fun _ _ _ => ⟨rfl, rfl, rfl, rfl, rfl, rfl⟩

/-- C5 counterexample: on a table with one sane row and one row whose
precio and costo are both -1, the cleaner reports 1 negative-costo row,
because the costo count is taken before the precio drop; the table state
after the prior drops (quantity, then price) contains no negative costo,
so the count claimed by C5 would be 0 and no costo warning would be
emitted.  The evaluation shows the returned warnings cite 1 dropped
negative-costo row while the post-prior-drops state has none. -/
theorem limpiar_conteo_costo_contraejemplo :
    limpiarE ⟨["fecha", "cantidad", "precio", "costo"],
      [[Cell.date 0, Cell.num 1, Cell.num (-1), Cell.num (-1)],
       [Cell.date 0, Cell.num 1, Cell.num 2, Cell.num 3]]⟩ =
      .ok (⟨["fecha", "cantidad", "precio", "costo"],
        [[Cell.date 0, Cell.num 1, Cell.num 2, Cell.num 3]]⟩,
        ⟨1, [advPrecioNegativo 1, advCostoNegativo 1]⟩) ∧
    ((⟨["fecha", "cantidad", "precio", "costo"],
      [[Cell.date 0, Cell.num 1, Cell.num (-1), Cell.num (-1)],
       [Cell.date 0, Cell.num 1, Cell.num 2, Cell.num 3]]⟩ : Table).filterCol
        "precio" noNegativaNum).countCol "costo" negativaNum = 0 := by
  exact ⟨rfl, rfl⟩

/-- A name present in a header has an index. -/
theorem idxEn_de_mem {c : String} :
    ∀ {l : List String}, c ∈ l → (idxEn c l).isSome := by
  intro l h
  induction l with
  | nil => cases h
  | cons x xs ih =>
    by_cases hx : x = c
    · simp [idxEn, hx]
    · rcases List.mem_cons.mp h with h1 | h2
      · exact absurd h1.symm hx
      · simpa [idxEn, hx] using ih h2

/-- A column index is within the header. -/
theorem idxEn_lt {c : String} :
    ∀ {l : List String} {i : Nat}, idxEn c l = some i → i < l.length := by
  intro l
  induction l with
  | nil => intro i h; simp [idxEn] at h
  | cons x xs ih =>
    intro i h
    by_cases hx : x = c
    · simp [idxEn, hx] at h
      simp only [List.length_cons]
      omega
    · simp [idxEn, hx] at h
      rcases h with ⟨j, hj, rfl⟩
      have := ih hj
      simp only [List.length_cons]
      omega

/-- The header entry at a column index is the column name. -/
theorem idxEn_getD {c : String} :
    ∀ {l : List String} {i : Nat}, idxEn c l = some i → l.getD i "" = c := by
  intro l
  induction l with
  | nil => intro i h; simp [idxEn] at h
  | cons x xs ih =>
    intro i h
    by_cases hx : x = c
    · simp [idxEn, hx] at h
      subst h
      simpa using hx
    · simp [idxEn, hx] at h
      rcases h with ⟨j, hj, rfl⟩
      simpa using ih hj

/-- getD after set at the same position. -/
theorem getD_set_mismo (l : List Cell) (i : Nat) (v d : Cell) (h : i < l.length) :
    (l.set i v).getD i d = v := by
  simp [List.getD_eq_getElem?_getD, List.getElem?_set_eq_of_lt _ h]

/-- getD after set at a different position. -/
theorem getD_set_otro (l : List Cell) (i j : Nat) (v d : Cell) (h : i ≠ j) :
    (l.set i v).getD j d = l.getD j d := by
  simp [List.getD_eq_getElem?_getD, List.getElem?_set_ne h]

/-- mapCol keeps the header. -/
theorem mapCol_cols (t : Table) (c : String) (f : Cell → Cell) :
    (t.mapCol c f).cols = t.cols := by
  unfold Table.mapCol
  cases t.idxCol c <;> rfl

/-- filterCol keeps the header. -/
theorem filterCol_cols (t : Table) (c : String) (p : Cell → Bool) :
    (t.filterCol c p).cols = t.cols := by
  unfold Table.filterCol
  cases t.idxCol c <;> rfl

/-- mapCol keeps the row count. -/
theorem nRows_mapCol (t : Table) (c : String) (f : Cell → Cell) :
    (t.mapCol c f).nRows = t.nRows := by
  unfold Table.mapCol Table.nRows
  cases t.idxCol c <;> simp

/-- filterCol cannot grow the row count. -/
theorem nRows_filterCol_le (t : Table) (c : String) (p : Cell → Bool) :
    (t.filterCol c p).nRows ≤ t.nRows := by
  unfold Table.filterCol Table.nRows
  cases t.idxCol c <;> simp [List.length_filter_le]

/-- Surviving rows of filterCol come from the original rows. -/
theorem filterCol_rows_sub {t : Table} {c : String} {p : Cell → Bool} {r : List Cell} :
    r ∈ (t.filterCol c p).rows → r ∈ t.rows := by
  unfold Table.filterCol
  cases t.idxCol c with
  | none => exact id
  | some i =>
    intro h
    exact (List.mem_filter.mp h).1

/-- mapCol preserves well-formedness. -/
theorem mapCol_WF {t : Table} (c : String) (f : Cell → Cell) (h : t.WF) :
    (t.mapCol c f).WF := by
  obtain ⟨hrect, hnd⟩ := h
  unfold Table.mapCol
  cases t.idxCol c with
  | none => exact ⟨hrect, hnd⟩
  | some i =>
    refine ⟨?_, hnd⟩
    intro r hr
    rcases List.mem_map.mp hr with ⟨r0, hr0, rfl⟩
    simpa using hrect r0 hr0

/-- filterCol preserves well-formedness. -/
theorem filterCol_WF {t : Table} (c : String) (p : Cell → Bool) (h : t.WF) :
    (t.filterCol c p).WF := by
  obtain ⟨hrect, hnd⟩ := h
  unfold Table.filterCol
  cases t.idxCol c with
  | none => exact ⟨hrect, hnd⟩
  | some i =>
    refine ⟨?_, hnd⟩
    intro r hr
    exact hrect r (List.mem_filter.mp hr).1

/-- Reading the written column of a well-formed table after mapCol. -/
theorem getCol_mapCol_mismo {t : Table} (hwf : t.WF) (c : String) (f : Cell → Cell) :
    (t.mapCol c f).getCol c = (t.getCol c).map f := by
  obtain ⟨hrect, _⟩ := hwf
  unfold Table.mapCol Table.getCol Table.idxCol
  cases hidx : idxEn c t.cols with
  | none => simp [hidx]
  | some i =>
    simp only [hidx, List.map_map]
    refine List.map_congr_left ?_
    intro r hr
    have hlen : i < r.length := by
      rw [hrect r hr]
      exact idxEn_lt hidx
    simp only [Function.comp]
    exact getD_set_mismo _ _ _ _ hlen

/-- Reading another column after mapCol: unchanged. -/
theorem getCol_mapCol_otro {t : Table} {c d : String} (hne : d ≠ c) (f : Cell → Cell) :
    (t.mapCol c f).getCol d = t.getCol d := by
  unfold Table.mapCol Table.getCol Table.idxCol
  cases hidx : idxEn c t.cols with
  | none => simp
  | some i =>
    cases hidxd : idxEn d t.cols with
    | none => simp [hidxd]
    | some j =>
      have hij : i ≠ j := by
        intro hij
        apply hne
        rw [← idxEn_getD hidxd, ← idxEn_getD hidx, hij]
      simp only [hidxd, List.map_map]
      refine List.map_congr_left ?_
      intro r hr
      simp only [Function.comp]
      exact getD_set_otro _ _ _ _ _ hij

/-- Cells of a column of a filtered table are cells of that column of the
original table. -/
theorem getCol_filterCol_sub {t : Table} {c d : String} {p : Cell → Bool} {x : Cell} :
    x ∈ (t.filterCol c p).getCol d → x ∈ t.getCol d := by
  unfold Table.filterCol Table.getCol Table.idxCol
  cases hidx : idxEn c t.cols with
  | none => exact id
  | some i =>
    cases hidxd : idxEn d t.cols with
    | none => simp [hidxd]
    | some j =>
      simp only [hidxd, List.mem_map]
      rintro ⟨r, hr, rfl⟩
      exact ⟨r, (List.mem_filter.mp hr).1, rfl⟩

/-- Cells of the filtering column of a filtered table satisfy the
predicate. -/
theorem getCol_filterCol_mismo {t : Table} {c : String} {p : Cell → Bool} {x : Cell} :
    x ∈ (t.filterCol c p).getCol c → p x = true := by
  unfold Table.filterCol Table.getCol Table.idxCol
  cases hidx : idxEn c t.cols with
  | none => simp [hidx]
  | some i =>
    simp only [hidx, List.mem_map]
    rintro ⟨r, hr, rfl⟩
    exact (List.mem_filter.mp hr).2

/-- A zero count means no cell of the column satisfies the predicate. -/
theorem countCol_cero {t : Table} {c : String} {p : Cell → Bool} :
    t.countCol c p = 0 ↔ ∀ x ∈ t.getCol c, p x = false := by
  unfold Table.countCol
  rw [List.countP_eq_zero]
  constructor
  · intro h x hx
    exact Bool.not_eq_true _ ▸ (by simpa using h x hx)
  · intro h x hx
    simp [h x hx]

/-- With the four columns present, limpiar returns its body applied to the
copy. -/
theorem limpiarE_ok {t : Table} (hf : "fecha" ∈ t.cols)
    (hc : "cantidad" ∈ t.cols) (hp : "precio" ∈ t.cols)
    (hco : "costo" ∈ t.cols) :
    limpiarE t = .ok (limpiarCuerpo t) := by
  obtain ⟨i1, h1⟩ := Option.isSome_iff_exists.mp (idxEn_de_mem hf)
  obtain ⟨i2, h2⟩ := Option.isSome_iff_exists.mp (idxEn_de_mem hc)
  obtain ⟨i3, h3⟩ := Option.isSome_iff_exists.mp (idxEn_de_mem hp)
  obtain ⟨i4, h4⟩ := Option.isSome_iff_exists.mp (idxEn_de_mem hco)
  simp only [limpiarE, Table.getColE, Table.idxCol, h1, h2, h3, h4]
  rfl

/-- The table component of the numeric-conversion step does not depend on
the warning accumulator. -/
theorem limpiarColumnaNumerica_fst (t : Table) (adv adv2 : List String) (col : String) :
    (limpiarColumnaNumerica t adv col).1 = (limpiarColumnaNumerica t adv2 col).1 := by
  unfold limpiarColumnaNumerica
  by_cases h : (t.mapCol col coerceNumCelda).countCol col esNulo > 0 <;> simp [h]

/-- The numeric-conversion step keeps the header. -/
theorem limpiarColumnaNumerica_cols (t : Table) (adv : List String) (col : String) :
    ((limpiarColumnaNumerica t adv col).1).cols = t.cols := by
  unfold limpiarColumnaNumerica
  by_cases h : (t.mapCol col coerceNumCelda).countCol col esNulo > 0 <;>
    simp [h, mapCol_cols]

/-- The numeric-conversion step keeps the row count. -/
theorem limpiarColumnaNumerica_nRows (t : Table) (adv : List String) (col : String) :
    ((limpiarColumnaNumerica t adv col).1).nRows = t.nRows := by
  unfold limpiarColumnaNumerica
  by_cases h : (t.mapCol col coerceNumCelda).countCol col esNulo > 0 <;>
    simp [h, nRows_mapCol]

/-- The numeric-conversion step preserves well-formedness. -/
theorem limpiarColumnaNumerica_WF {t : Table} (adv : List String) (col : String)
    (h : t.WF) : ((limpiarColumnaNumerica t adv col).1).WF := by
  by_cases hn : (t.mapCol col coerceNumCelda).countCol col esNulo > 0
  · have he : (limpiarColumnaNumerica t adv col).1 =
        (t.mapCol col coerceNumCelda).mapCol col llenarCeroCelda := by
      unfold limpiarColumnaNumerica
      simp [hn]
    rw [he]
    exact mapCol_WF _ _ (mapCol_WF _ _ h)
  · have he : (limpiarColumnaNumerica t adv col).1 = t.mapCol col coerceNumCelda := by
      unfold limpiarColumnaNumerica
      simp [hn]
    rw [he]
    exact mapCol_WF _ _ h

/-- The numeric-conversion step leaves other columns unchanged. -/
theorem limpiarColumnaNumerica_otra {d col : String} (hne : d ≠ col)
    (t : Table) (adv : List String) :
    ((limpiarColumnaNumerica t adv col).1).getCol d = t.getCol d := by
  unfold limpiarColumnaNumerica
  by_cases h : (t.mapCol col coerceNumCelda).countCol col esNulo > 0 <;>
    simp [h, getCol_mapCol_otro hne]

/-- Numeric coercion yields only numbers and nulls. -/
theorem coerceNum_forma (c : Cell) :
    coerceNumCelda c = Cell.null ∨ ∃ q, coerceNumCelda c = Cell.num q := by
  cases c with
  | num q => exact Or.inr ⟨q, rfl⟩
  | null => exact Or.inl rfl
  | date d => exact Or.inl rfl
  | str s =>
    rcases h : parseNum s with _ | q
    · exact Or.inl (by simp [coerceNumCelda, h])
    · exact Or.inr ⟨q, by simp [coerceNumCelda, h]⟩

/-- After the numeric-conversion step, every cell of the converted column
of a well-formed table is a number. -/
theorem limpiarColumnaNumerica_todo_num {t : Table} (hwf : t.WF)
    (adv : List String) (col : String) :
    ∀ x ∈ ((limpiarColumnaNumerica t adv col).1).getCol col,
      ∃ q, x = Cell.num q := by
  intro x hx
  have hwf1 : (t.mapCol col coerceNumCelda).WF := mapCol_WF _ _ hwf
  have hcoerce : (t.mapCol col coerceNumCelda).getCol col =
      (t.getCol col).map coerceNumCelda := getCol_mapCol_mismo hwf _ _
  unfold limpiarColumnaNumerica at hx
  by_cases h : (t.mapCol col coerceNumCelda).countCol col esNulo > 0
  · rw [if_pos h] at hx
    simp only at hx
    rw [getCol_mapCol_mismo hwf1, hcoerce] at hx
    rcases List.mem_map.mp hx with ⟨y, hy, rfl⟩
    rcases List.mem_map.mp hy with ⟨z, hz, rfl⟩
    rcases coerceNum_forma z with h0 | ⟨q, h0⟩ <;> rw [h0]
    · exact ⟨0, rfl⟩
    · exact ⟨q, rfl⟩
  · rw [if_neg h] at hx
    simp only at hx
    have hnone : (t.mapCol col coerceNumCelda).countCol col esNulo = 0 := by omega
    have hno := countCol_cero.mp hnone x hx
    rw [hcoerce] at hx
    rcases List.mem_map.mp hx with ⟨z, hz, rfl⟩
    rcases coerceNum_forma z with h0 | ⟨q, h0⟩
    · rw [h0] at hno
      simp [esNulo] at hno
    · exact ⟨q, h0⟩

/-- The conversion phase (steps 1-2) cannot grow the row count. -/
theorem fase_nRows_le (t : Table) : (fasePreNegativos t).1.nRows ≤ t.nRows := by
  simp only [fasePreNegativos]
  rw [limpiarColumnaNumerica_nRows, limpiarColumnaNumerica_nRows,
    limpiarColumnaNumerica_nRows]
  calc ((t.mapCol "fecha" coerceFechaCelda).filterCol "fecha"
          (fun c => !esNulo c)).nRows
      ≤ (t.mapCol "fecha" coerceFechaCelda).nRows := nRows_filterCol_le _ _ _
    _ = t.nRows := nRows_mapCol _ _ _

/-- The conversion phase preserves well-formedness. -/
theorem fase_WF {t : Table} (h : t.WF) : (fasePreNegativos t).1.WF := by
  simp only [fasePreNegativos]
  exact limpiarColumnaNumerica_WF _ _ (limpiarColumnaNumerica_WF _ _
    (limpiarColumnaNumerica_WF _ _ (filterCol_WF _ _ (mapCol_WF _ _ h))))

/-- After the conversion phase, the fecha column has no null: the dateless
rows were dropped and later steps touch other columns. -/
theorem fase_fecha_no_nula {t : Table} :
    ∀ x ∈ (fasePreNegativos t).1.getCol "fecha", x ≠ Cell.null := by
  simp only [fasePreNegativos]
  intro x hx
  rw [limpiarColumnaNumerica_otra (show ("fecha" : String) ≠ "costo" by decide),
    limpiarColumnaNumerica_otra (show ("fecha" : String) ≠ "precio" by decide),
    limpiarColumnaNumerica_otra (show ("fecha" : String) ≠ "cantidad" by decide)] at hx
  have h := getCol_filterCol_mismo hx
  intro he
  rw [he] at h
  simp [esNulo] at h

/-- After the conversion phase, every cantidad cell is a number. -/
theorem fase_cantidad_num {t : Table} (hwf : t.WF) :
    ∀ x ∈ (fasePreNegativos t).1.getCol "cantidad", ∃ q, x = Cell.num q := by
  simp only [fasePreNegativos]
  intro x hx
  rw [limpiarColumnaNumerica_otra (show ("cantidad" : String) ≠ "costo" by decide),
    limpiarColumnaNumerica_otra (show ("cantidad" : String) ≠ "precio" by decide)] at hx
  exact limpiarColumnaNumerica_todo_num
    (filterCol_WF _ _ (mapCol_WF _ _ hwf)) _ _ x hx

/-- After the conversion phase, every precio cell is a number. -/
theorem fase_precio_num {t : Table} (hwf : t.WF) :
    ∀ x ∈ (fasePreNegativos t).1.getCol "precio", ∃ q, x = Cell.num q := by
  simp only [fasePreNegativos]
  intro x hx
  rw [limpiarColumnaNumerica_otra (show ("precio" : String) ≠ "costo" by decide)] at hx
  exact limpiarColumnaNumerica_todo_num
    (limpiarColumnaNumerica_WF _ _ (filterCol_WF _ _ (mapCol_WF _ _ hwf))) _ _ x hx

/-- After the conversion phase, every costo cell is a number. -/
theorem fase_costo_num {t : Table} (hwf : t.WF) :
    ∀ x ∈ (fasePreNegativos t).1.getCol "costo", ∃ q, x = Cell.num q := by
  simp only [fasePreNegativos]
  intro x hx
  exact limpiarColumnaNumerica_todo_num
    (limpiarColumnaNumerica_WF _ _ (limpiarColumnaNumerica_WF _ _
      (filterCol_WF _ _ (mapCol_WF _ _ hwf)))) _ _ x hx

/-- A cell passing the >= 0 mask is a nonnegative number. -/
theorem celda_noNeg_forma {x : Cell} (h : noNegativaNum x = true) :
    ∃ q, x = Cell.num q ∧ 0 ≤ q := by
  cases x with
  | num q => exact ⟨q, rfl, by simpa [noNegativaNum] using h⟩
  | str s => simp [noNegativaNum] at h
  | null => simp [noNegativaNum] at h
  | date d => simp [noNegativaNum] at h

/-- A numeric column with a zero negative count is nonnegative. -/
theorem conteoCero_noNeg {t : Table} {col : String}
    (hzero : t.countCol col negativaNum = 0)
    (hnum : ∀ x ∈ t.getCol col, ∃ q, x = Cell.num q) :
    ∀ x ∈ t.getCol col, ∃ q, x = Cell.num q ∧ 0 ≤ q := by
  intro x hx
  obtain ⟨q, rfl⟩ := hnum x hx
  have h := countCol_cero.mp hzero _ hx
  simp only [negativaNum, decide_eq_false_iff_not] at h
  exact ⟨q, rfl, le_of_not_lt h⟩

/-- Cells of any column of a conditionally filtered table come from the
unfiltered table. -/
theorem getCol_iteFilter_sub {t : Table} {c d : String} {pr : Cell → Bool}
    {b : Prop} [Decidable b] {x : Cell} :
    x ∈ (if b then t.filterCol c pr else t).getCol d → x ∈ t.getCol d := by
  split
  · exact getCol_filterCol_sub
  · exact id

/-- The negative-value drops leave no null fecha and only nonnegative
numbers in cantidad, precio and costo, given the conversion-phase
invariants. -/
theorem faseNegTabla_post (t5 : Table)
    (hF : ∀ x ∈ t5.getCol "fecha", x ≠ Cell.null)
    (hQ : ∀ x ∈ t5.getCol "cantidad", ∃ q, x = Cell.num q)
    (hP : ∀ x ∈ t5.getCol "precio", ∃ q, x = Cell.num q)
    (hC : ∀ x ∈ t5.getCol "costo", ∃ q, x = Cell.num q) :
    (∀ x ∈ (faseNegTabla t5).getCol "fecha", x ≠ Cell.null) ∧
    (∀ x ∈ (faseNegTabla t5).getCol "cantidad", ∃ q, x = Cell.num q ∧ 0 ≤ q) ∧
    (∀ x ∈ (faseNegTabla t5).getCol "precio", ∃ q, x = Cell.num q ∧ 0 ≤ q) ∧
    (∀ x ∈ (faseNegTabla t5).getCol "costo", ∃ q, x = Cell.num q ∧ 0 ≤ q) := by
  simp only [faseNegTabla]
  set nQ := t5.countCol "cantidad" negativaNum with hnQ
  set t6 := if nQ > 0 then t5.filterCol "cantidad" noNegativaNum else t5 with ht6
  have hsub6 : ∀ d x, x ∈ t6.getCol d → x ∈ t5.getCol d := by
    intro d x hx
    rw [ht6] at hx
    exact getCol_iteFilter_sub hx
  have hQ6 : ∀ x ∈ t6.getCol "cantidad", ∃ q, x = Cell.num q ∧ 0 ≤ q := by
    rw [ht6]
    split
    · exact fun x hx => celda_noNeg_forma (getCol_filterCol_mismo hx)
    · next hzero =>
      exact conteoCero_noNeg (by omega) hQ
  set nP := t6.countCol "precio" negativaNum with hnP
  set nC := t6.countCol "costo" negativaNum with hnC
  set t7 := if nP > 0 then t6.filterCol "precio" noNegativaNum else t6 with ht7
  have hsub7 : ∀ d x, x ∈ t7.getCol d → x ∈ t6.getCol d := by
    intro d x hx
    rw [ht7] at hx
    exact getCol_iteFilter_sub hx
  have hP7 : ∀ x ∈ t7.getCol "precio", ∃ q, x = Cell.num q ∧ 0 ≤ q := by
    rw [ht7]
    split
    · exact fun x hx => celda_noNeg_forma (getCol_filterCol_mismo hx)
    · next hzero =>
      exact conteoCero_noNeg (by omega) (fun x hx => hP x (hsub6 _ x hx))
  set t8 := if nC > 0 then t7.filterCol "costo" noNegativaNum else t7 with ht8
  have hsub8 : ∀ d x, x ∈ t8.getCol d → x ∈ t7.getCol d := by
    intro d x hx
    rw [ht8] at hx
    exact getCol_iteFilter_sub hx
  have hC8 : ∀ x ∈ t8.getCol "costo", ∃ q, x = Cell.num q ∧ 0 ≤ q := by
    rw [ht8]
    split
    · exact fun x hx => celda_noNeg_forma (getCol_filterCol_mismo hx)
    · next hzero =>
      have hbase : ∀ x ∈ t6.getCol "costo", ∃ q, x = Cell.num q ∧ 0 ≤ q :=
        conteoCero_noNeg (by omega) (fun x hx => hC x (hsub6 _ x hx))
      exact fun x hx => hbase x (hsub7 _ x hx)
  refine ⟨?_, ?_, ?_, hC8⟩
  · exact fun x hx => hF x (hsub6 _ x (hsub7 _ x (hsub8 _ x hx)))
  · exact fun x hx => hQ6 x (hsub7 _ x (hsub8 _ x hx))
  · exact fun x hx => hP7 x (hsub8 _ x hx)

/-- C10: implicit cleaner postcondition — for every well-formed input table
containing the columns fecha, cantidad, precio, and costo, the table
returned by limpiar has no null in fecha, and its cantidad, precio and
costo columns hold only numbers, each at least 0: the invariant that makes
the transformer's derived revenue nonnegative and its margin-ratio
division guard sufficient downstream. -/
theorem limpiar_postcondicion (t : Table) (hwf : t.WF)
    (hf : "fecha" ∈ t.cols) (hc : "cantidad" ∈ t.cols)
    (hp : "precio" ∈ t.cols) (hco : "costo" ∈ t.cols) :
    ∃ tLimpia res, limpiarE t = .ok (tLimpia, res) ∧
      (∀ x ∈ tLimpia.getCol "fecha", x ≠ Cell.null) ∧
      (∀ col ∈ (["cantidad", "precio", "costo"] : List String),
        ∀ x ∈ tLimpia.getCol col, ∃ q, x = Cell.num q ∧ 0 ≤ q) := by
  obtain ⟨h1, h2, h3, h4⟩ := faseNegTabla_post (fasePreNegativos t).1
    fase_fecha_no_nula (fase_cantidad_num hwf) (fase_precio_num hwf)
    (fase_costo_num hwf)
  have hfinal : (limpiarCuerpo t).1 = faseNegTabla (fasePreNegativos t).1 := by
    simp only [limpiarCuerpo]
  refine ⟨(limpiarCuerpo t).1, (limpiarCuerpo t).2,
    by rw [limpiarE_ok hf hc hp hco], ?_, ?_⟩
  · rw [hfinal]
    exact h1
  · intro col hcol x hx
    rw [hfinal] at hx
    rcases List.mem_cons.mp hcol with rfl | hcol2
    · exact h2 x hx
    rcases List.mem_cons.mp hcol2 with rfl | hcol3
    · exact h3 x hx
    rcases List.mem_cons.mp hcol3 with rfl | hcol4
    · exact h4 x hx
    cases hcol4

/-- A conditional column filter cannot grow the row count. -/
theorem nRows_iteFilter_le (t : Table) (c : String) (p : Cell → Bool)
    (b : Prop) [Decidable b] :
    (if b then t.filterCol c p else t).nRows ≤ t.nRows := by
  split
  · exact nRows_filterCol_le _ _ _
  · exact le_rfl

/-- The negative-value drops cannot grow the row count. -/
theorem faseNegTabla_nRows_le (t5 : Table) :
    (faseNegTabla t5).nRows ≤ t5.nRows := by
  simp only [faseNegTabla]
  refine le_trans (nRows_iteFilter_le _ _ _ _) (le_trans (nRows_iteFilter_le _ _ _ _)
    (nRows_iteFilter_le _ _ _ _))

/-- C5 (amended): with the four columns present, limpiar returns the table
of the sequential drops and a report where rows_removed is the initial row
count minus the final row count (the final count never exceeding the
initial), and whose warnings extend the conversion-phase warnings in check
order — negative-quantity first (counted on the post-conversion state),
then negative-price and negative-cost; the price and cost counts are BOTH
evaluated on the state after the quantity drop and before the price drop,
so the reported cost count is not re-evaluated after the price drop. -/
theorem limpiar_drops_secuenciales (t : Table)
    (hf : "fecha" ∈ t.cols) (hc : "cantidad" ∈ t.cols)
    (hp : "precio" ∈ t.cols) (hco : "costo" ∈ t.cols) :
    ∃ tLimpia res, limpiarE t = .ok (tLimpia, res) ∧
      tLimpia = faseNegTabla (fasePreNegativos t).1 ∧
      tLimpia.nRows ≤ t.nRows ∧
      res.filas_eliminadas = t.nRows - tLimpia.nRows ∧
      (let t5 := (fasePreNegativos t).1
       let nCant := t5.countCol "cantidad" negativaNum
       let t6 := if nCant > 0 then t5.filterCol "cantidad" noNegativaNum else t5
       let nPrecio := t6.countCol "precio" negativaNum
       let nCosto := t6.countCol "costo" negativaNum
       res.advertencias = (fasePreNegativos t).2
         ++ (if nCant > 0 then [advCantidadNegativa nCant] else [])
         ++ (if nPrecio > 0 then [advPrecioNegativo nPrecio] else [])
         ++ (if nCosto > 0 then [advCostoNegativo nCosto] else [])) := by
  have htabla : (limpiarCuerpo t).1 = faseNegTabla (fasePreNegativos t).1 := by
    simp only [limpiarCuerpo]
  refine ⟨(limpiarCuerpo t).1, (limpiarCuerpo t).2,
    by rw [limpiarE_ok hf hc hp hco], htabla, ?_, ?_, ?_⟩
  · rw [htabla]
    exact le_trans (faseNegTabla_nRows_le _) (fase_nRows_le t)
  · simp only [limpiarCuerpo]
  · simp only [limpiarCuerpo]

/-- C5 witness at a concrete table: one row with negative precio and costo
plus one sane row; the hypotheses hold by evaluation. -/
theorem limpiar_drops_secuenciales_witness :
    ("fecha" ∈ (⟨["fecha", "cantidad", "precio", "costo"],
      [[Cell.date 0, Cell.num 1, Cell.num (-1), Cell.num (-1)],
       [Cell.date 0, Cell.num 1, Cell.num 2, Cell.num 3]]⟩ : Table).cols) ∧
    (∃ tLimpia res,
      limpiarE ⟨["fecha", "cantidad", "precio", "costo"],
        [[Cell.date 0, Cell.num 1, Cell.num (-1), Cell.num (-1)],
         [Cell.date 0, Cell.num 1, Cell.num 2, Cell.num 3]]⟩ = .ok (tLimpia, res) ∧
      tLimpia = faseNegTabla (fasePreNegativos ⟨["fecha", "cantidad", "precio", "costo"],
        [[Cell.date 0, Cell.num 1, Cell.num (-1), Cell.num (-1)],
         [Cell.date 0, Cell.num 1, Cell.num 2, Cell.num 3]]⟩).1 ∧
      tLimpia.nRows ≤ (⟨["fecha", "cantidad", "precio", "costo"],
        [[Cell.date 0, Cell.num 1, Cell.num (-1), Cell.num (-1)],
         [Cell.date 0, Cell.num 1, Cell.num 2, Cell.num 3]]⟩ : Table).nRows ∧
      res.filas_eliminadas = (⟨["fecha", "cantidad", "precio", "costo"],
        [[Cell.date 0, Cell.num 1, Cell.num (-1), Cell.num (-1)],
         [Cell.date 0, Cell.num 1, Cell.num 2, Cell.num 3]]⟩ : Table).nRows - tLimpia.nRows ∧
      (let t5 := (fasePreNegativos ⟨["fecha", "cantidad", "precio", "costo"],
        [[Cell.date 0, Cell.num 1, Cell.num (-1), Cell.num (-1)],
         [Cell.date 0, Cell.num 1, Cell.num 2, Cell.num 3]]⟩).1
       let nCant := t5.countCol "cantidad" negativaNum
       let t6 := if nCant > 0 then t5.filterCol "cantidad" noNegativaNum else t5
       let nPrecio := t6.countCol "precio" negativaNum
       let nCosto := t6.countCol "costo" negativaNum
       res.advertencias = (fasePreNegativos ⟨["fecha", "cantidad", "precio", "costo"],
        [[Cell.date 0, Cell.num 1, Cell.num (-1), Cell.num (-1)],
         [Cell.date 0, Cell.num 1, Cell.num 2, Cell.num 3]]⟩).2
         ++ (if nCant > 0 then [advCantidadNegativa nCant] else [])
         ++ (if nPrecio > 0 then [advPrecioNegativo nPrecio] else [])
         ++ (if nCosto > 0 then [advCostoNegativo nCosto] else []))) :=
  ⟨by decide,
   limpiar_drops_secuenciales _ (by decide) (by decide) (by decide) (by decide)⟩

/-- C10 witness at a concrete table: a row with a convertible date, a
numeric string quantity, a numeric price and a null cost; the hypotheses
hold by evaluation. -/
theorem limpiar_postcondicion_witness :
    (⟨["fecha", "cantidad", "precio", "costo"],
      [[Cell.date 3, Cell.num 2, Cell.num 5, Cell.null]]⟩ : Table).WF ∧
    (∃ tLimpia res,
      limpiarE ⟨["fecha", "cantidad", "precio", "costo"],
        [[Cell.date 3, Cell.num 2, Cell.num 5, Cell.null]]⟩ = .ok (tLimpia, res) ∧
      (∀ x ∈ tLimpia.getCol "fecha", x ≠ Cell.null) ∧
      (∀ col ∈ (["cantidad", "precio", "costo"] : List String),
        ∀ x ∈ tLimpia.getCol col, ∃ q, x = Cell.num q ∧ 0 ≤ q)) :=
  ⟨by decide,
   limpiar_postcondicion _ (by decide) (by decide) (by decide) (by decide) (by decide)⟩

/-- Membership in an ordered insertion. -/
theorem mem_insertarOrdenado {a x : Int} :
    ∀ {l : List Int}, a ∈ insertarOrdenado x l ↔ a = x ∨ a ∈ l := by
  intro l
  induction l with
  | nil => simp [insertarOrdenado]
  | cons y ys ih =>
    by_cases h1 : x < y
    · simp [insertarOrdenado, h1]
    · by_cases h2 : x = y
      · subst h2
        simp only [insertarOrdenado, if_neg h1, if_pos rfl]
        constructor
        · exact Or.inr
        · rintro (rfl | h)
          · exact List.mem_cons_self _ _
          · exact h
      · simp only [insertarOrdenado, if_neg h1, if_neg h2, List.mem_cons, ih]
        tauto

/-- Membership in the distinct sorted keys. -/
theorem mem_fechasUnicas {a : Int} :
    ∀ {l : List Int}, a ∈ fechasUnicas l ↔ a ∈ l := by
  intro l
  induction l with
  | nil => simp [fechasUnicas]
  | cons x xs ih =>
    simp only [fechasUnicas, List.foldr_cons, mem_insertarOrdenado, List.mem_cons]
    rw [show xs.foldr insertarOrdenado [] = fechasUnicas xs from rfl, ih]

/-- Ordered insertion keeps strict sortedness. -/
theorem insertarOrdenado_pairwise {x : Int} :
    ∀ {l : List Int}, l.Pairwise (· < ·) →
      (insertarOrdenado x l).Pairwise (· < ·) := by
  intro l
  induction l with
  | nil => intro _; simp [insertarOrdenado]
  | cons y ys ih =>
    intro h
    rcases List.pairwise_cons.mp h with ⟨hy, hys⟩
    by_cases h1 : x < y
    · simp only [insertarOrdenado, if_pos h1]
      refine List.pairwise_cons.mpr ⟨?_, h⟩
      intro b hb
      rcases List.mem_cons.mp hb with rfl | hb2
      · exact h1
      · exact lt_trans h1 (hy b hb2)
    · by_cases h2 : x = y
      · subst h2
        simp only [insertarOrdenado, if_neg h1, if_pos rfl]
        exact h
      · simp only [insertarOrdenado, if_neg h1, if_neg h2]
        refine List.pairwise_cons.mpr ⟨?_, ih hys⟩
        intro b hb
        rcases mem_insertarOrdenado.mp hb with rfl | hb2
        · omega
        · exact hy b hb2

/-- The distinct keys are strictly ascending. -/
theorem fechasUnicas_pairwise :
    ∀ (l : List Int), (fechasUnicas l).Pairwise (· < ·) := by
  intro l
  induction l with
  | nil => simp [fechasUnicas]
  | cons x xs ih => exact insertarOrdenado_pairwise ih

/-- The seed of a left max fold bounds nothing above the result. -/
theorem foldl_max_ge_inicial : ∀ (xs : List Int) (a : Int), a ≤ xs.foldl max a := by
  intro xs
  induction xs with
  | nil => intro a; exact le_rfl
  | cons x xs ih =>
    intro a
    calc a ≤ max a x := le_max_left a x
      _ ≤ xs.foldl max (max a x) := ih _

/-- Every member of the list is bounded by the left max fold. -/
theorem foldl_max_ge_mem :
    ∀ (xs : List Int) (a : Int), ∀ y ∈ xs, y ≤ xs.foldl max a := by
  intro xs
  induction xs with
  | nil => intro a y hy; cases hy
  | cons x xs ih =>
    intro a y hy
    rcases List.mem_cons.mp hy with rfl | hy2
    · calc y ≤ max a y := le_max_right a y
        _ ≤ xs.foldl max (max a y) := foldl_max_ge_inicial _ _
    · exact ih _ y hy2

/-- The left max fold is the seed or a member. -/
theorem foldl_max_mem :
    ∀ (xs : List Int) (a : Int), xs.foldl max a = a ∨ xs.foldl max a ∈ xs := by
  intro xs
  induction xs with
  | nil => intro a; exact Or.inl rfl
  | cons x xs ih =>
    intro a
    rcases ih (max a x) with h | h
    · rcases max_choice a x with he | he
      · exact Or.inl (by rw [List.foldl_cons, h, he])
      · refine Or.inr ?_
        rw [List.foldl_cons, h, he]
        exact List.mem_cons_self _ _
    · refine Or.inr (List.mem_cons_of_mem _ ?_)
      rw [List.foldl_cons]
      exact h

/-- maximoDe bounds every member. -/
theorem maximoDe_ge {l : List Int} : ∀ y ∈ l, y ≤ maximoDe l := by
  intro y hy
  cases l with
  | nil => cases hy
  | cons x xs =>
    rcases List.mem_cons.mp hy with rfl | hy2
    · exact foldl_max_ge_inicial xs y
    · exact foldl_max_ge_mem xs x y hy2

/-- maximoDe of a nonempty list is a member. -/
theorem maximoDe_mem {l : List Int} (h : l ≠ []) : maximoDe l ∈ l := by
  cases l with
  | nil => exact absurd rfl h
  | cons x xs =>
    rcases foldl_max_mem xs x with he | he
    · rw [show maximoDe (x :: xs) = xs.foldl max x from rfl, he]
      exact List.mem_cons_self _ _
    · exact List.mem_cons_of_mem _ he

/-- The distinct keys of a nonempty list are nonempty. -/
theorem fechasUnicas_ne_nil {l : List Int} (h : l ≠ []) : fechasUnicas l ≠ [] := by
  cases l with
  | nil => exact absurd rfl h
  | cons x xs =>
    intro hmal
    have : x ∈ fechasUnicas (x :: xs) := mem_fechasUnicas.mpr (List.mem_cons_self _ _)
    rw [hmal] at this
    cases this

/-- Deduplication does not change the maximum. -/
theorem maximoDe_fechasUnicas {l : List Int} (h : l ≠ []) :
    maximoDe (fechasUnicas l) = maximoDe l := by
  have h2 : fechasUnicas l ≠ [] := fechasUnicas_ne_nil h
  apply le_antisymm
  · exact maximoDe_ge _ (mem_fechasUnicas.mp (maximoDe_mem h2))
  · exact maximoDe_ge _ (mem_fechasUnicas.mpr (maximoDe_mem h))

/-- C8: for every nonempty input table, entrenar_y_pronosticar aggregates
ingresos by day, assigns the aggregated days 0-based consecutive ordinal
indices that depend only on how many distinct days have data (calendar
gaps are not reflected), and returns the historical daily rows labeled
Real, in strictly ascending date order, followed by exactly dias_futuros
forecast-labeled rows whose dates are the consecutive daily dates starting
the day after the last observed date (hence all strictly after it); for an
empty input table it fails with an error and produces no partial
result. -/
theorem pronosticador_estructura (tabla : List FilaPron) (dias_futuros : Nat) :
    (tabla = [] → entrenar_y_pronosticar tabla dias_futuros =
      .error "No hay datos para generar pronóstico.") ∧
    (tabla ≠ [] →
      entrenar_y_pronosticar tabla dias_futuros = .ok
        ⟨tablaReal tabla ++ tablaFutura tabla dias_futuros,
         (ajustarRectaMC ((agregarDiario tabla).map (·.2))).1,
         (ajustarRectaMC ((agregarDiario tabla).map (·.2))).2⟩ ∧
      indicesDia tabla = List.range (fechasUnicas (tabla.map (·.fecha))).length ∧
      ((tablaReal tabla).map (·.fecha)).Pairwise (· < ·) ∧
      (∀ fila ∈ tablaReal tabla, fila.tipo = "Real") ∧
      (tablaFutura tabla dias_futuros).length = dias_futuros ∧
      (∀ fila ∈ tablaFutura tabla dias_futuros, fila.tipo = "Pronóstico") ∧
      (tablaFutura tabla dias_futuros).map (·.fecha) =
        (List.range dias_futuros).map
          (fun k : Nat => maximoDe (tabla.map (·.fecha)) + 1 + (k : Int)) ∧
      (∀ fila ∈ tablaFutura tabla dias_futuros,
        maximoDe (tabla.map (·.fecha)) < fila.fecha) ∧
      (∀ fila ∈ tabla, fila.fecha ≤ maximoDe (tabla.map (·.fecha))) ∧
      maximoDe (tabla.map (·.fecha)) ∈ tabla.map (·.fecha)) := by
  constructor
  · intro h
    subst h
    rfl
  · intro h
    have hFne : tabla.map (·.fecha) ≠ [] := by simpa using h
    have hEmpty : tabla.isEmpty = false := by
      cases tabla
      · exact absurd rfl h
      · rfl
    have hfst : (agregarDiario tabla).map (·.1) =
        fechasUnicas (tabla.map (·.fecha)) := by
      unfold agregarDiario
      rw [List.map_map]
      exact List.map_id _
    have hmax : maximoDe ((agregarDiario tabla).map (·.1)) =
        maximoDe (tabla.map (·.fecha)) := by
      rw [hfst, maximoDe_fechasUnicas hFne]
    have hfechasFut : (tablaFutura tabla dias_futuros).map (·.fecha) =
        (List.range dias_futuros).map
          (fun k : Nat => maximoDe (tabla.map (·.fecha)) + 1 + (k : Int)) := by
      have hlen : ((List.range dias_futuros).map
          (fun k : Nat => maximoDe ((agregarDiario tabla).map (·.1)) + 1 + (k : Int))).length ≤
          ((List.range' ((indicesDia tabla).length - 1 + 1) dias_futuros).map
            (fun i : Nat => (ajustarRectaMC ((agregarDiario tabla).map (·.2))).2 +
              (ajustarRectaMC ((agregarDiario tabla).map (·.2))).1 * (i : Rat))).length := by
        rw [List.length_map, List.length_map, List.length_range, List.length_range']
      simp only [tablaFutura, List.map_map]
      rw [show ((fun x : FilaPronSalida => x.fecha) ∘
          fun p : Int × Rat => FilaPronSalida.mk p.1 p.2 "Pronóstico") =
          Prod.fst from rfl]
      rw [List.map_fst_zip _ _ hlen]
      simp only [hmax]
    refine ⟨?_, ?_, ?_, ?_, ?_, ?_, hfechasFut, ?_, ?_, ?_⟩
    · simp [entrenar_y_pronosticar, hEmpty]
    · simp [indicesDia, agregarDiario]
    · have hreal : (tablaReal tabla).map (·.fecha) =
          (agregarDiario tabla).map (·.1) := by
        unfold tablaReal
        rw [List.map_map]
        rfl
      rw [hreal, hfst]
      exact fechasUnicas_pairwise _
    · intro fila hf
      rcases List.mem_map.mp hf with ⟨d, _, rfl⟩
      rfl
    · simp only [tablaFutura]
      rw [List.length_map, List.length_zip, List.length_map, List.length_map,
        List.length_range, List.length_range']
      exact Nat.min_self _
    · intro fila hf
      simp only [tablaFutura] at hf
      rcases List.mem_map.mp hf with ⟨p, _, rfl⟩
      rfl
    · intro fila hf
      have hmem : fila.fecha ∈ (tablaFutura tabla dias_futuros).map (·.fecha) :=
        List.mem_map_of_mem _ hf
      rw [hfechasFut] at hmem
      rcases List.mem_map.mp hmem with ⟨k, _, heq⟩
      omega
    · intro fila hf
      exact maximoDe_ge _ (List.mem_map_of_mem _ hf)
    · exact maximoDe_mem hFne

/-- C8 witness at the one-row table with date 5 and revenue 100, horizon 2:
the nonemptiness hypothesis holds by evaluation and the structure theorem
applies. -/
theorem pronosticador_estructura_witness :
    (([⟨5, 100⟩] : List FilaPron) ≠ []) ∧
    (entrenar_y_pronosticar [⟨5, 100⟩] 2 = .ok
        ⟨tablaReal [⟨5, 100⟩] ++ tablaFutura [⟨5, 100⟩] 2,
         (ajustarRectaMC ((agregarDiario [⟨5, 100⟩]).map (·.2))).1,
         (ajustarRectaMC ((agregarDiario [⟨5, 100⟩]).map (·.2))).2⟩ ∧
      indicesDia [⟨5, 100⟩] =
        List.range (fechasUnicas (([⟨5, 100⟩] : List FilaPron).map (·.fecha))).length ∧
      ((tablaReal [⟨5, 100⟩]).map (·.fecha)).Pairwise (· < ·) ∧
      (∀ fila ∈ tablaReal [⟨5, 100⟩], fila.tipo = "Real") ∧
      (tablaFutura [⟨5, 100⟩] 2).length = 2 ∧
      (∀ fila ∈ tablaFutura [⟨5, 100⟩] 2, fila.tipo = "Pronóstico") ∧
      (tablaFutura [⟨5, 100⟩] 2).map (·.fecha) =
        (List.range 2).map
          (fun k : Nat =>
            maximoDe (([⟨5, 100⟩] : List FilaPron).map (·.fecha)) + 1 + (k : Int)) ∧
      (∀ fila ∈ tablaFutura [⟨5, 100⟩] 2,
        maximoDe (([⟨5, 100⟩] : List FilaPron).map (·.fecha)) < fila.fecha) ∧
      (∀ fila ∈ ([⟨5, 100⟩] : List FilaPron),
        fila.fecha ≤ maximoDe (([⟨5, 100⟩] : List FilaPron).map (·.fecha))) ∧
      maximoDe (([⟨5, 100⟩] : List FilaPron).map (·.fecha)) ∈
        ([⟨5, 100⟩] : List FilaPron).map (·.fecha)) :=
  ⟨by decide, (pronosticador_estructura [⟨5, 100⟩] 2).2 (by decide)⟩

/-- Membership in a string key insertion. -/
theorem mem_insertarClave {a x : String} :
    ∀ {l : List String}, a ∈ insertarClave x l ↔ a = x ∨ a ∈ l := by
  intro l
  induction l with
  | nil => simp [insertarClave]
  | cons y ys ih =>
    by_cases h1 : x < y
    · simp [insertarClave, h1]
    · by_cases h2 : x = y
      · subst h2
        simp only [insertarClave, if_neg h1, if_pos rfl]
        constructor
        · exact Or.inr
        · rintro (rfl | h)
          · exact List.mem_cons_self _ _
          · exact h
      · simp only [insertarClave, if_neg h1, if_neg h2, List.mem_cons, ih]
        tauto

/-- The distinct keys of a nonempty string list are nonempty. -/
theorem clavesUnicas_ne_nil {l : List String} (h : l ≠ []) :
    clavesUnicas l ≠ [] := by
  cases l with
  | nil => exact absurd rfl h
  | cons x xs =>
    intro hmal
    have hx : x ∈ clavesUnicas (x :: xs) := mem_insertarClave.mpr (Or.inl rfl)
    rw [hmal] at hx
    cases hx

/-- The grouped product table of a nonempty table is nonempty. -/
theorem porProducto_ne_nil {actual : List FilaBI} (h : actual ≠ []) :
    porProducto actual ≠ [] := by
  unfold porProducto
  intro hmal
  have h2 : clavesUnicas (actual.map (·.id_producto)) ≠ [] :=
    clavesUnicas_ne_nil (by simpa using h)
  rcases he : clavesUnicas (actual.map (·.id_producto)) with _ | ⟨x, xs⟩
  · exact h2 he
  · rw [he] at hmal
    cases hmal

/-- The trend insight carries one of its two fixed titles. -/
theorem insightTendencia_titulo (a b : List FilaBI) :
    (insightTendencia a b).titulo = "Ingresos sin referencia histórica" ∨
    (insightTendencia a b).titulo = "Rendimiento vs período anterior" := by
  simp only [insightTendencia]
  split <;> split <;> first
    | exact Or.inl rfl
    | exact Or.inr rfl

/-- The product and concentration blocks are sublists of the generated
insights when the current table is nonempty. -/
theorem partes_sub_generar (actual anterior : List FilaBI)
    (h : actual.isEmpty = false) :
    (∀ ins ∈ parteProducto actual, ins ∈ generar actual anterior) ∧
    (∀ ins ∈ parteConcentracion actual, ins ∈ generar actual anterior) := by
  constructor <;> intro ins hi <;>
    simp only [generar, h, Bool.false_eq_true, if_false, List.mem_append,
      List.mem_cons] <;> tauto

/-- Every generated insight is in the product block, in the concentration
block, or carries one of the four other fixed titles. -/
theorem generar_descomp (actual anterior : List FilaBI)
    (h : actual.isEmpty = false) :
    ∀ ins ∈ generar actual anterior,
      ins ∈ parteProducto actual ∨ ins ∈ parteConcentracion actual ∨
      ins.titulo = "Ingresos sin referencia histórica" ∨
      ins.titulo = "Rendimiento vs período anterior" ∨
      ins.titulo = "Región líder" ∨ ins.titulo = "Canal más fuerte" := by
  intro ins hi
  simp only [generar, h, Bool.false_eq_true, if_false] at hi
  rcases List.mem_append.mp hi with h4 | h5
  · rcases List.mem_append.mp h4 with h3 | hprod
    · rcases List.mem_append.mp h3 with h2 | hcanal
      · rcases List.mem_append.mp h2 with h1 | hregion
        · have heq := List.mem_singleton.mp h1
          have ht := insightTendencia_titulo actual anterior
          rw [heq]
          tauto
        · split at hregion
          · rcases List.mem_singleton.mp hregion with rfl
            tauto
          · cases hregion
      · split at hcanal
        · rcases List.mem_singleton.mp hcanal with rfl
          tauto
        · cases hcanal
    · tauto
  · tauto

/-- C9: for every nonempty current subset, generar emits a leading-product
insight whose category is positive exactly when the leading product margin
percentage (taken as 0 when its revenue is not positive) is at least 15,
and negative exactly otherwise; and, independently and additionally, emits
the negative concentration-risk insight exactly when the leading product
share of total current revenue is at least 60 percent — in the concrete
two-product table where product A holds a 70 percent revenue share with a
30 percent margin, both insights are present. -/
theorem insights_lider_concentracion :
    (∀ (actual anterior : List FilaBI), actual ≠ [] →
      ∃ top, filaLider (porProducto actual) = some top ∧
        ((Insight.mk "Producto líder y rentabilidad" "positivo" ∈
            generar actual anterior) ↔
          15 ≤ (if top.ingresos > 0 then (top.margen / top.ingresos) * 100 else 0)) ∧
        ((Insight.mk "Producto líder y rentabilidad" "negativo" ∈
            generar actual anterior) ↔
          (if top.ingresos > 0 then (top.margen / top.ingresos) * 100 else 0) < 15) ∧
        ((Insight.mk "Riesgo de concentración" "negativo" ∈
            generar actual anterior) ↔
          60 ≤ (if ((porProducto actual).map (·.ingresos)).sum > 0 then
            (top.ingresos / ((porProducto actual).map (·.ingresos)).sum) * 100
          else 0))) ∧
    (Insight.mk "Producto líder y rentabilidad" "positivo" ∈
      generar ejemploConcentracion [] ∧
     Insight.mk "Riesgo de concentración" "negativo" ∈
      generar ejemploConcentracion []) := by
  constructor
  · intro actual anterior h
    have hE : actual.isEmpty = false := by
      cases actual
      · exact absurd rfl h
      · rfl
    have hne := porProducto_ne_nil h
    obtain ⟨sub1, sub2⟩ := partes_sub_generar actual anterior hE
    have hdes := generar_descomp actual anterior hE
    obtain ⟨x, xs, hpp⟩ := List.exists_cons_of_ne_nil hne
    obtain ⟨top, hlider⟩ : ∃ top, filaLider (porProducto actual) = some top := by
      rw [hpp]
      exact ⟨_, rfl⟩
    have hProd : parteProducto actual =
        [Insight.mk "Producto líder y rentabilidad"
          (if (if top.ingresos > 0 then (top.margen / top.ingresos) * 100 else 0) < 15
           then "negativo" else "positivo")] := by
      simp only [parteProducto, hlider]
    have hConc : parteConcentracion actual =
        (if (if ((porProducto actual).map (·.ingresos)).sum > 0 then
              (top.ingresos / ((porProducto actual).map (·.ingresos)).sum) * 100
            else 0) ≥ 60
         then [Insight.mk "Riesgo de concentración" "negativo"] else []) := by
      simp only [parteConcentracion, hlider]
    refine ⟨top, hlider, ?_, ?_, ?_⟩
    · constructor
      · intro hm
        rcases hdes _ hm with hp | hc | ht | ht | ht | ht
        · rw [hProd] at hp
          have heq := List.mem_singleton.mp hp
          have htipo := congrArg Insight.tipo heq
          by_cases hm15 : (if top.ingresos > 0 then (top.margen / top.ingresos) * 100 else 0) < 15
          · rw [if_pos hm15] at htipo
            simp at htipo
          · exact not_lt.mp hm15
        · rw [hConc] at hc
          split at hc <;> split at hc <;>
            first
            | cases hc
            | (have heq := List.mem_singleton.mp hc
               simp at heq)
        · simp at ht
        · simp at ht
        · simp at ht
        · simp at ht
      · intro h15
        apply sub1
        rw [hProd]
        simp [if_neg (not_lt.mpr h15)]
    · constructor
      · intro hm
        rcases hdes _ hm with hp | hc | ht | ht | ht | ht
        · rw [hProd] at hp
          have heq := List.mem_singleton.mp hp
          have htipo := congrArg Insight.tipo heq
          by_cases hm15 : (if top.ingresos > 0 then (top.margen / top.ingresos) * 100 else 0) < 15
          · exact hm15
          · rw [if_neg hm15] at htipo
            simp at htipo
        · rw [hConc] at hc
          split at hc <;> split at hc <;>
            first
            | cases hc
            | (have heq := List.mem_singleton.mp hc
               simp at heq)
        · simp at ht
        · simp at ht
        · simp at ht
        · simp at ht
      · intro h15
        apply sub1
        rw [hProd]
        simp [if_pos h15]
    · constructor
      · intro hm
        rcases hdes _ hm with hp | hc | ht | ht | ht | ht
        · rw [hProd] at hp
          have heq := List.mem_singleton.mp hp
          have htit := congrArg Insight.titulo heq
          simp at htit
        · rw [hConc] at hc
          split at hc
          · next htotal =>
            split at hc
            · next hshare =>
              rw [if_pos htotal]
              exact hshare
            · cases hc
          · next htotal =>
            split at hc
            · next hshare =>
              exfalso
              norm_num at hshare
            · cases hc
        · simp at ht
        · simp at ht
        · simp at ht
        · simp at ht
      · intro h60
        apply sub2
        rw [hConc]
        simp [if_pos h60]
  · constructor <;>
      norm_num +decide [generar, porProducto, clavesUnicas, insertarClave,
        filaLider, parteProducto, parteConcentracion, insightTendencia,
        ejemploConcentracion, List.mem_append]

/-- C9 witness at the concrete 70/30 two-product table: the nonemptiness
hypothesis holds by evaluation and the characterization applies. -/
theorem insights_lider_concentracion_witness :
    (ejemploConcentracion ≠ []) ∧
    (∃ top, filaLider (porProducto ejemploConcentracion) = some top ∧
      ((Insight.mk "Producto líder y rentabilidad" "positivo" ∈
          generar ejemploConcentracion []) ↔
        15 ≤ (if top.ingresos > 0 then (top.margen / top.ingresos) * 100 else 0)) ∧
      ((Insight.mk "Producto líder y rentabilidad" "negativo" ∈
          generar ejemploConcentracion []) ↔
        (if top.ingresos > 0 then (top.margen / top.ingresos) * 100 else 0) < 15) ∧
      ((Insight.mk "Riesgo de concentración" "negativo" ∈
          generar ejemploConcentracion []) ↔
        60 ≤ (if ((porProducto ejemploConcentracion).map (·.ingresos)).sum > 0 then
          (top.ingresos / ((porProducto ejemploConcentracion).map (·.ingresos)).sum) * 100
        else 0))) :=
  ⟨by decide, insights_lider_concentracion.1 ejemploConcentracion [] (by decide)⟩
